import Mathlib

/-!
# minimp3_ex.h (liborbis sample): buffered loader, frame iterator, chunked reader

A shallow embedding of `src/samples/minimp3/include/minimp3_ex.h`.

Conventions of the embedding.

* A byte buffer `(const uint8_t *buf, size_t buf_size)` is a `List Nat` of bytes together
  with the length argument, as in the C signature.  A cursor into the buffer is the
  offset of the C pointer from the original `buf`.
* The frame decoder `mp3dec_decode_frame`, the frame search `mp3d_find_frame` and the
  header accessors live in `minimp3.h`, which is not part of the embedded file; they are
  parameters of the model.  Their results are natural numbers (sample counts, byte counts,
  rates), as the real decoder only reports non-negative values.
* `size_t` subtractions wrap around modulo `2 ^ 64` (`size_sub`).  Sums and products of
  sizes are taken in `ℕ`.
* Loops whose termination depends on the external decoder take a fuel argument; a run
  records how it ended in `Status`.
-/

namespace Minimp3

/-! ## Data model -/

/-- Frame metadata written by the decoder (`mp3dec_frame_info_t`, fields used here). -/
structure mp3dec_frame_info_t where
  frame_bytes : Nat
  channels : Nat
  hz : Nat
  layer : Nat
  bitrate_kbps : Nat
deriving DecidableEq, Repr

/-- Decoded stream (`mp3dec_file_info_t`).  `buffer` is `none` for a null pointer and
`some n` for a heap block of `n` bytes. -/
structure mp3dec_file_info_t where
  buffer : Option Nat
  samples : Nat
  channels : Nat
  hz : Nat
  layer : Nat
  avg_bitrate_kbps : Nat
deriving DecidableEq, Repr

/-- Result of `memset(info, 0, sizeof(*info))`. -/
def mp3dec_file_info_t.zero : mp3dec_file_info_t :=
  { buffer := none, samples := 0, channels := 0, hz := 0, layer := 0, avg_bitrate_kbps := 0 }

/-- Result of `memset(&frame_info, 0, sizeof(frame_info))`. -/
def mp3dec_frame_info_t.zero : mp3dec_frame_info_t :=
  { frame_bytes := 0, channels := 0, hz := 0, layer := 0, bitrate_kbps := 0 }

/-- Compile-time constants of `minimp3.h`, the build switch and the allocator.
`alloc n` tells whether `malloc`/`realloc` of `n` bytes succeeds. -/
structure Env where
  MINIMP3_MAX_SAMPLES_PER_FRAME : Nat
  sizeof_sample : Nat
  MINIMP3_ALLOW_MONO_STEREO_TRANSITION : Bool
  alloc : Nat → Bool

/-- The external frame decoder: `init` is the state left by `mp3dec_init`, and
`decode dec buf buf_size` is one call of `mp3dec_decode_frame` with the cursor at offset
`buf` and `buf_size` bytes remaining; it yields the new decoder state, the returned sample
count and the frame info it filled in. -/
structure FrameDecoder (σ : Type) where
  init : σ
  decode : σ → Nat → Nat → σ × Nat × mp3dec_frame_info_t

/-- How a run ended: `returned` normally, `fault` on undefined behaviour of the C code
(division by zero, write through a null pointer), `out_of_fuel` when the model was given
too little fuel. -/
inductive Status where
  | returned
  | fault
  | out_of_fuel
deriving DecidableEq, Repr

/-- One call of `mp3dec_decode_frame`: cursor, remaining length, and the destination:
`none` for the local `pcm` array, `some (allocated, samples)` for
`info->buffer + info->samples` inside a block of `allocated` bytes. -/
structure DecodeCall where
  buf : Nat
  buf_size : Nat
  dst : Option (Nat × Nat)
deriving DecidableEq, Repr

/-- One `allocated *= 2` event: capacity and used samples just before the doubling. -/
structure GrowEvent where
  allocated : Nat
  samples : Nat
deriving DecidableEq, Repr

/-- One invocation of the progress callback: `(file_size, offset, info)`. -/
structure ProgressCall where
  file_size : Nat
  offset : Nat
  info : mp3dec_frame_info_t
deriving DecidableEq, Repr

/-- Local variables of `mp3dec_load_buf`, the output `info`, and the observable events
in the order they happen: decoder calls, sizes requested from `malloc`/`realloc`,
capacity doublings, progress callbacks. -/
structure LoadState (σ : Type) where
  dec : σ
  buf : Nat
  buf_size : Nat
  info : mp3dec_file_info_t
  frame_info : mp3dec_frame_info_t
  samples : Nat
  allocated : Nat
  avg_bitrate_kbps : Nat
  frames : Nat
  calls : List DecodeCall
  allocs : List Nat
  grows : List GrowEvent
  progress : List ProgressCall
  status : Status

/-! ## Operations -/

/-- Subtraction of `size_t` values, wrapping modulo `2 ^ 64`. -/
def size_sub (a b : Nat) : Nat :=
  if b ≤ a then a - b else a + 2 ^ 64 - b

/-- Byte `i` of the buffer. -/
def byte_at (buf : List Nat) (i : Nat) : Nat := buf.getD i 0

/-- The test `!strncmp((char *)buf, "ID3", 3)`. -/
def is_id3 (buf : List Nat) : Bool :=
  byte_at buf 0 == 0x49 && byte_at buf 1 == 0x44 && byte_at buf 2 == 0x33

/-- Embeds `mp3dec_skip_id3v2`. -/
def mp3dec_skip_id3v2 (buf : List Nat) (buf_size : Nat) : Nat :=
  if buf_size > 10 ∧ is_id3 buf = true then
    ((((byte_at buf 6 &&& 0x7f) <<< 21) ||| ((byte_at buf 7 &&& 0x7f) <<< 14) |||
      ((byte_at buf 8 &&& 0x7f) <<< 7) ||| (byte_at buf 9 &&& 0x7f))) + 10
  else 0

/-- One decoder call with the cursor update that follows it in both loops:
`samples = mp3dec_decode_frame(dec, buf, buf_size, dst, &frame_info);`
`buf += frame_info.frame_bytes; buf_size -= frame_info.frame_bytes;`.
`dst` is the destination recorded for the call. -/
def decode_next {σ : Type} (D : FrameDecoder σ) (dst : Option (Nat × Nat))
    (st : LoadState σ) : LoadState σ :=
  let r := D.decode st.dec st.buf st.buf_size
  { st with
    dec := r.1, samples := r.2.1, frame_info := r.2.2,
    calls := st.calls ++ [{ buf := st.buf, buf_size := st.buf_size, dst := dst }],
    buf := st.buf + r.2.2.frame_bytes,
    buf_size := size_sub st.buf_size r.2.2.frame_bytes }

/-- The first `do ... while (frame_info.frame_bytes)` loop of `mp3dec_load_buf`: decode
into the local `pcm` until a call yields samples or reports a zero frame length. -/
def first_frame {σ : Type} (D : FrameDecoder σ) : Nat → LoadState σ → LoadState σ
  | 0, st => { st with status := Status.out_of_fuel }
  | fuel + 1, st =>
    let st1 := decode_next D none st
    if st1.samples ≠ 0 then st1
    else if st1.frame_info.frame_bytes ≠ 0 then first_frame D fuel st1
    else st1

/-- The capacity check at the top of the rest-frames loop:
`if ((allocated - info->samples*sizeof(mp3d_sample_t)) < MAX*sizeof(mp3d_sample_t))`
then `allocated *= 2` and `realloc`. -/
def grow_buffer {σ : Type} (env : Env) (st : LoadState σ) : LoadState σ :=
  if size_sub st.allocated (st.info.samples * env.sizeof_sample)
      < env.MINIMP3_MAX_SAMPLES_PER_FRAME * env.sizeof_sample then
    { st with
      allocated := st.allocated * 2,
      info := { st.info with
        buffer := if env.alloc (st.allocated * 2) then some (st.allocated * 2) else none },
      allocs := st.allocs ++ [st.allocated * 2],
      grows := st.grows ++ [{ allocated := st.allocated, samples := st.info.samples }] }
  else st

/-- The two `break` tests on a frame that produced samples: rate or layer differs from
the saved values, or (strict build) the saved channel count is non-zero and differs. -/
def stream_break {σ : Type} (env : Env) (st : LoadState σ) : Bool :=
  decide (st.info.hz ≠ st.frame_info.hz ∨ st.info.layer ≠ st.frame_info.layer) ||
    (decide (st.info.channels ≠ 0 ∧ st.info.channels ≠ st.frame_info.channels) &&
      !env.MINIMP3_ALLOW_MONO_STEREO_TRANSITION)

/-- The statements run for a frame that is kept: mark a mono/stereo transition
(permissive build only reaches this with differing channels), add the samples, the
bitrate and the frame, and invoke the progress callback when it is non-null. -/
def accumulate {σ : Type} (progress_cb : Bool) (orig_buf_size : Nat)
    (st : LoadState σ) : LoadState σ :=
  { st with
    info := { st.info with
      channels :=
        if st.info.channels ≠ 0 ∧ st.info.channels ≠ st.frame_info.channels then 0
        else st.info.channels,
      samples := st.info.samples + st.samples * st.frame_info.channels },
    avg_bitrate_kbps := st.avg_bitrate_kbps + st.frame_info.bitrate_kbps,
    frames := st.frames + 1,
    progress :=
      if progress_cb then
        st.progress ++
          [{ file_size := orig_buf_size, offset := size_sub orig_buf_size st.buf_size,
             info := st.frame_info }]
      else st.progress }

/-- The decoder call of the rest-frames loop, writing at `info->buffer + info->samples`,
with the cursor update that follows it. -/
def decode_tail {σ : Type} (D : FrameDecoder σ) (st : LoadState σ) : LoadState σ :=
  decode_next D (some (st.allocated, st.info.samples)) st

/-- The `do ... while (frame_bytes)` loop that decodes the rest frames into the tail of
`info->buffer`.  A failed `realloc` leaves a null `info->buffer`, and the decoder call
that follows writes through it. -/
def rest_frames {σ : Type} (env : Env) (D : FrameDecoder σ) (progress_cb : Bool)
    (orig_buf_size : Nat) : Nat → LoadState σ → LoadState σ
  | 0, st => { st with status := Status.out_of_fuel }
  | fuel + 1, st =>
    let st1 := grow_buffer env st
    if st1.info.buffer = none then { st1 with status := Status.fault }
    else
      let st2 := decode_tail D st1
      if st2.samples ≠ 0 then
        if stream_break env st2 = true then st2
        else
          let st3 := accumulate progress_cb orig_buf_size st2
          if st3.frame_info.frame_bytes ≠ 0 then
            rest_frames env D progress_cb orig_buf_size fuel st3
          else st3
      else if st2.frame_info.frame_bytes ≠ 0 then
        rest_frames env D progress_cb orig_buf_size fuel st2
      else st2

/-- The tail of `mp3dec_load_buf` after the rest-frames loop: shrink the block to the
used size and store the average bitrate. -/
def finish_load {σ : Type} (env : Env) (st : LoadState σ) : LoadState σ :=
  { st with
    info := { st.info with
      buffer :=
        if st.allocated ≠ st.info.samples * env.sizeof_sample then
          (if env.alloc (st.info.samples * env.sizeof_sample) then
            some (st.info.samples * env.sizeof_sample) else none)
        else st.info.buffer,
      avg_bitrate_kbps := st.avg_bitrate_kbps / st.frames },
    allocs :=
      if st.allocated ≠ st.info.samples * env.sizeof_sample then
        st.allocs ++ [st.info.samples * env.sizeof_sample]
      else st.allocs }

/-- The allocation size assumed from the first frame:
`(buf_size/frame_info.frame_bytes)*samples*sizeof(mp3d_sample_t)
  + MINIMP3_MAX_SAMPLES_PER_FRAME*sizeof(mp3d_sample_t)` with `samples` already multiplied
by the channel count. -/
def first_allocated {σ : Type} (env : Env) (st : LoadState σ) : Nat :=
  (st.buf_size / st.frame_info.frame_bytes) * (st.samples * st.frame_info.channels)
      * env.sizeof_sample
    + env.MINIMP3_MAX_SAMPLES_PER_FRAME * env.sizeof_sample

/-- The statements between the two loops once `malloc` has succeeded: store the first
frame and its stream parameters, start the bitrate accumulator and the frame counter. -/
def save_first {σ : Type} (env : Env) (st : LoadState σ) : LoadState σ :=
  { st with
    samples := st.samples * st.frame_info.channels,
    allocated := first_allocated env st,
    info :=
      { buffer := some (first_allocated env st),
        samples := st.samples * st.frame_info.channels,
        channels := st.frame_info.channels, hz := st.frame_info.hz,
        layer := st.frame_info.layer, avg_bitrate_kbps := 0 },
    avg_bitrate_kbps := st.frame_info.bitrate_kbps,
    frames := 1,
    allocs := st.allocs ++ [first_allocated env st] }

/-- Everything `mp3dec_load_buf` does after the metadata skip (from `mp3dec_init` on),
started with the cursor and the remaining length in `st`.  A first frame reported with
samples but zero `frame_bytes` makes the size estimate divide by zero. -/
def load_frames {σ : Type} (env : Env) (D : FrameDecoder σ) (progress_cb : Bool)
    (orig_buf_size : Nat) (fuel : Nat) (st : LoadState σ) : LoadState σ :=
  let st1 := first_frame D fuel { st with dec := D.init }
  if st1.status ≠ Status.returned then st1
  else if st1.samples = 0 then st1
  else if st1.frame_info.frame_bytes = 0 then { st1 with status := Status.fault }
  else if env.alloc (first_allocated env st1) = false then
    { st1 with
      samples := st1.samples * st1.frame_info.channels,
      allocated := first_allocated env st1,
      allocs := st1.allocs ++ [first_allocated env st1] }
  else
    let st3 := rest_frames env D progress_cb orig_buf_size fuel (save_first env st1)
    if st3.status = Status.returned then finish_load env st3 else st3

/-- State at entry of `mp3dec_load_buf`, after the two `memset`s. -/
def load_init {σ : Type} (D : FrameDecoder σ) (buf_size : Nat) : LoadState σ :=
  { dec := D.init, buf := 0, buf_size := buf_size,
    info := mp3dec_file_info_t.zero, frame_info := mp3dec_frame_info_t.zero,
    samples := 0, allocated := 0, avg_bitrate_kbps := 0, frames := 0,
    calls := [], allocs := [], grows := [], progress := [], status := Status.returned }

/-- Embeds `mp3dec_load_buf`.  `progress_cb` tells whether the callback pointer is
non-null; its invocations are recorded in `progress`. -/
def mp3dec_load_buf {σ : Type} (env : Env) (D : FrameDecoder σ) (buf : List Nat)
    (buf_size : Nat) (progress_cb : Bool) (fuel : Nat) : LoadState σ :=
  let id3v2size := mp3dec_skip_id3v2 buf buf_size
  if id3v2size > buf_size then load_init D buf_size
  else
    load_frames env D progress_cb buf_size fuel
      { load_init D buf_size with
        buf := id3v2size, buf_size := size_sub buf_size id3v2size }

/-- One answer of the decoder: returned sample count and frame info. -/
structure DecodeResult where
  samples : Nat
  info : mp3dec_frame_info_t
deriving DecidableEq, Repr

/-- A decoder that gives the listed answers in order, whatever the cursor, and reports
end of stream (no samples, zero frame length) once the list is used up. -/
def script_decoder (script : List DecodeResult) : FrameDecoder (List DecodeResult) where
  init := script
  decode := fun s _ _ =>
    match s with
    | [] => ([], 0, mp3dec_frame_info_t.zero)
    | r :: rs => (rs, r.samples, r.info)

/-! ## Frame iterator -/

/-- The external frame search of `minimp3.h`: `find buf buf_size` is one call of
`mp3d_find_frame` with the cursor at offset `buf`, giving the returned skip `i` and the
`frame_size` it stored; the other fields read the frame header at a cursor
(`HDR_IS_MONO(hdr) ? 1 : 2`, `hdr_sample_rate_hz`, `4 - HDR_GET_LAYER(hdr)`,
`hdr_bitrate_kbps`). -/
structure FrameSearch where
  find : Nat → Nat → Nat × Nat
  channels : Nat → Nat
  hz : Nat → Nat
  layer : Nat → Nat
  bitrate_kbps : Nat → Nat

/-- Arguments of one invocation of the iterate callback:
`(frame, frame_size, offset, info)`; `frame` is the cursor of the header. -/
structure IterCall where
  frame : Nat
  frame_size : Nat
  offset : Nat
  info : mp3dec_frame_info_t
deriving DecidableEq, Repr

/-- Local variables of `mp3dec_iterate_buf`, the user data threaded through the
callback, and the observable events (frame searches as `(cursor, remaining length)`,
callback invocations). -/
structure IterState (υ : Type) where
  user_data : υ
  buf : Nat
  buf_size : Nat
  frame_info : mp3dec_frame_info_t
  finds : List (Nat × Nat)
  cb_calls : List IterCall
  status : Status

/-- The `do ... while (1)` loop of `mp3dec_iterate_buf`, with its `continue`, its two
conditional `break`s and the unconditional `break` that ends the body. -/
def iterate_frames {υ : Type} (S : FrameSearch) (callback : υ → IterCall → υ × Int) :
    Nat → IterState υ → IterState υ
  | 0, st => { st with status := Status.out_of_fuel }
  | fuel + 1, st =>
    let r := S.find st.buf st.buf_size
    let st1 : IterState υ :=
      { st with
        finds := st.finds ++ [(st.buf, st.buf_size)],
        buf := st.buf + r.1,
        buf_size := size_sub st.buf_size r.1 }
    if r.1 ≠ 0 ∧ r.2 = 0 then iterate_frames S callback fuel st1
    else if r.2 = 0 then st1
    else
      let fi : mp3dec_frame_info_t :=
        { frame_bytes := r.2, channels := S.channels st1.buf, hz := S.hz st1.buf,
          layer := S.layer st1.buf, bitrate_kbps := S.bitrate_kbps st1.buf }
      let call : IterCall :=
        { frame := st1.buf, frame_size := r.2, offset := st1.buf, info := fi }
      let c := callback st1.user_data call
      let st2 : IterState υ :=
        { st1 with frame_info := fi, user_data := c.1, cb_calls := st1.cb_calls ++ [call] }
      if c.2 ≠ 0 then st2
      else { st2 with buf := st2.buf + r.2, buf_size := size_sub st2.buf_size r.2 }

/-- State at entry of `mp3dec_iterate_buf`. -/
def iterate_init {υ : Type} (user_data : υ) (buf_size : Nat) : IterState υ :=
  { user_data := user_data, buf := 0, buf_size := buf_size,
    frame_info := mp3dec_frame_info_t.zero, finds := [], cb_calls := [],
    status := Status.returned }

/-- Embeds `mp3dec_iterate_buf`; `callback = none` is the null callback. -/
def mp3dec_iterate_buf {υ : Type} (S : FrameSearch)
    (callback : Option (υ → IterCall → υ × Int)) (user_data : υ) (buf : List Nat)
    (buf_size : Nat) (fuel : Nat) : IterState υ :=
  match callback with
  | none => iterate_init user_data buf_size
  | some cb =>
    let id3v2size := mp3dec_skip_id3v2 buf buf_size
    if id3v2size > buf_size then iterate_init user_data buf_size
    else
      iterate_frames S cb fuel
        { iterate_init user_data buf_size with
          buf := id3v2size, buf_size := size_sub buf_size id3v2size }

/-! ## Chunked file source (`__PS4__` with `CHUNKED_READS`) -/

/-- The chunk size `SIZE`. -/
def SIZE : Int := 32768

/-- Window descriptor (`mp3dec_map_info_t`).  `buffer` is `none` for a null pointer,
otherwise the bytes of the block. -/
structure mp3dec_map_info_t where
  buffer : Option (List Nat)
  size : Int

/-- Result of `memset(map_info, 0, sizeof(*map_info))`. -/
def mp3dec_map_info_t.zero : mp3dec_map_info_t := { buffer := none, size := 0 }

/-- The file-scope variables `pFile`, `num`, `readed`, the `orbisRead` calls issued so far
as `(pos, returned value)`, and whether `orbisClose` has been called. -/
structure ChunkState where
  pFile : Int
  num : Int
  readed : Int
  reads : List (Int × Int)
  closed : Bool
deriving DecidableEq, Repr

/-- Embeds `mp3dec_read_chunk`.  `ret` is what `orbisRead(pFile, buffer + pos, SIZE)`
returns if the call is issued. -/
def mp3dec_read_chunk (map_info : mp3dec_map_info_t) (pos : Int) (ret : Int)
    (g : ChunkState) : ChunkState :=
  if g.readed = map_info.size then g
  else
    let g1 : ChunkState := { g with readed := g.readed + ret, reads := g.reads ++ [(pos, ret)] }
    if ret < SIZE then g1 else { g1 with num := g1.num + 1 }

/-- What the platform answers during `mp3dec_open_file`: the value of `orbisOpen`, the
`int32_t` value stored from `orbisLseek(pFile, 0, SEEK_END)`, whether `calloc` succeeds,
the bytes held by the window after the initial fill, and what the two initial
`orbisRead` calls return if issued. -/
structure OsFile where
  orbisOpen : Int
  fileSize : Int
  calloc_ok : Bool
  window : List Nat
  read0 : Int
  read1 : Int

/-- Embeds `mp3dec_open_file`, branch `__PS4__` with `CHUNKED_READS`: returned status,
window descriptor and file-scope variables. -/
def mp3dec_open_file (os : OsFile) (g : ChunkState) :
    Int × mp3dec_map_info_t × ChunkState :=
  let g1 : ChunkState := { g with pFile := os.orbisOpen }
  if g1.pFile ≤ 0 then (0, mp3dec_map_info_t.zero, g1)
  else if os.fileSize < 0 ∨ os.fileSize < SIZE * 2 then
    (0, mp3dec_map_info_t.zero, { g1 with closed := true })
  else
    let map_info : mp3dec_map_info_t :=
      { buffer := if os.calloc_ok then some os.window else none, size := os.fileSize }
    let g2 : ChunkState := { g1 with num := 0, readed := 0 }
    let g3 := mp3dec_read_chunk map_info (0 * SIZE) os.read0 g2
    let g4 := mp3dec_read_chunk map_info (1 * SIZE) os.read1 g3
    if map_info.buffer.isNone then (0, map_info, g4) else (1, map_info, g4)

/-- Embeds `mp3dec_close_file`. -/
def mp3dec_close_file (map_info : mp3dec_map_info_t) (g : ChunkState) :
    mp3dec_map_info_t × ChunkState :=
  ({ map_info with buffer := none, size := 0 }, { g with closed := true })

/-- Outcome of `mp3dec_load`: the returned status, the run of `mp3dec_load_buf` when it
was called, and the file-scope variables. `fault` marks a null window passed with a
length above ten bytes, which `mp3dec_skip_id3v2` dereferences. -/
structure LoadFileResult (σ : Type) where
  ret : Int
  run : Option (LoadState σ)
  fault : Bool
  g : ChunkState

/-- Embeds `mp3dec_load`. -/
def mp3dec_load {σ : Type} (env : Env) (D : FrameDecoder σ) (os : OsFile) (g : ChunkState)
    (progress_cb : Bool) (fuel : Nat) : LoadFileResult σ :=
  let o := mp3dec_open_file os g
  if o.1 ≠ 0 then { ret := o.1, run := none, fault := false, g := o.2.2 }
  else
    match o.2.1.buffer with
    | none =>
      if o.2.1.size.toNat > 10 then { ret := 0, run := none, fault := true, g := o.2.2 }
      else
        let st := mp3dec_load_buf env D [] o.2.1.size.toNat progress_cb fuel
        { ret := if st.info.samples ≠ 0 then 0 else -1, run := some st, fault := false,
          g := (mp3dec_close_file o.2.1 o.2.2).2 }
    | some w =>
      let st := mp3dec_load_buf env D w o.2.1.size.toNat progress_cb fuel
      { ret := if st.info.samples ≠ 0 then 0 else -1, run := some st, fault := false,
        g := (mp3dec_close_file o.2.1 o.2.2).2 }

/-- Outcome of `mp3dec_iterate`: the returned status and the run of `mp3dec_iterate_buf`
when it was called. -/
structure IterFileResult (υ : Type) where
  ret : Int
  run : Option (IterState υ)
  fault : Bool
  g : ChunkState

/-- Embeds `mp3dec_iterate`. -/
def mp3dec_iterate {υ : Type} (S : FrameSearch)
    (callback : Option (υ → IterCall → υ × Int)) (user_data : υ) (os : OsFile)
    (g : ChunkState) (fuel : Nat) : IterFileResult υ :=
  let o := mp3dec_open_file os g
  if o.1 ≠ 0 then { ret := o.1, run := none, fault := false, g := o.2.2 }
  else
    match o.2.1.buffer with
    | none =>
      if callback.isSome ∧ o.2.1.size.toNat > 10 then
        { ret := 0, run := none, fault := true, g := o.2.2 }
      else
        { ret := 0,
          run := some (mp3dec_iterate_buf S callback user_data [] o.2.1.size.toNat fuel),
          fault := false, g := (mp3dec_close_file o.2.1 o.2.2).2 }
    | some w =>
      { ret := 0,
        run := some (mp3dec_iterate_buf S callback user_data w o.2.1.size.toNat fuel),
        fault := false, g := (mp3dec_close_file o.2.1 o.2.2).2 }

/-- A sequence of `mp3dec_read_chunk` calls, each given as `(pos, ret)`. -/
def read_chunks (map_info : mp3dec_map_info_t) : List (Int × Int) → ChunkState → ChunkState
  | [], g => g
  | c :: cs, g => read_chunks map_info cs (mp3dec_read_chunk map_info c.1 c.2 g)

/-! ## Reference definitions taken from the specification -/

/-- The size declared by a metadata header, as the specification decodes it: the low
seven bits of bytes 6..9, most significant byte first. -/
def synchsafe_size (buf : List Nat) : Nat :=
  (byte_at buf 6 &&& 0x7f) * 2 ^ 21 + (byte_at buf 7 &&& 0x7f) * 2 ^ 14 +
    (byte_at buf 8 &&& 0x7f) * 2 ^ 7 + (byte_at buf 9 &&& 0x7f)

/-- The ASCII signature `ID3`. -/
def id3_signature : List Nat := [0x49, 0x44, 0x33]

/-- The default build: `minimp3.h` gives 1152 * 2 samples per frame at most and 16-bit
samples, the mono/stereo switch is off, and every allocation succeeds. -/
def default_env : Env :=
  { MINIMP3_MAX_SAMPLES_PER_FRAME := 1152 * 2, sizeof_sample := 2,
    MINIMP3_ALLOW_MONO_STEREO_TRANSITION := false, alloc := fun _ => true }

/-! ## Invariants and list-level descriptions of a run

`first_split`, `rest_kept` and `kept_frames` say which answers of a scripted decoder the
two loops consume and keep; `accumulated` states the same in the words of the
specification, and the two are proved equal. -/

/-- Capacity invariant of the rest-frames loop. -/
def LoadInv {σ : Type} (env : Env) (st : LoadState σ) : Prop :=
  env.MINIMP3_MAX_SAMPLES_PER_FRAME * env.sizeof_sample ≤ st.allocated ∧
  st.info.samples * env.sizeof_sample ≤ st.allocated ∧
  (∀ c ∈ st.calls, ∀ a u, c.dst = some (a, u) →
    u * env.sizeof_sample + env.MINIMP3_MAX_SAMPLES_PER_FRAME * env.sizeof_sample ≤ a) ∧
  (∀ g ∈ st.grows, g.samples * env.sizeof_sample ≤ g.allocated ∧
    g.allocated - g.samples * env.sizeof_sample
      < env.MINIMP3_MAX_SAMPLES_PER_FRAME * env.sizeof_sample) ∧
  (∃ a0, st.allocs.head? = some a0 ∧ st.allocated = a0 * 2 ^ st.grows.length)

/-- Progress invariant of the rest-frames loop. -/
def ProgressInv {σ : Type} (orig : Nat) (st : LoadState σ) : Prop :=
  st.buf + st.buf_size = orig ∧
  st.progress.length + 1 = st.frames ∧
  (∀ p ∈ st.progress, p.file_size = orig ∧
    ∃ c ∈ st.calls, c.dst ≠ none ∧ p.offset = c.buf + p.info.frame_bytes)

/-- The first answer with samples that the first loop reaches, and the answers after it. -/
def first_split : List DecodeResult → Option (DecodeResult × List DecodeResult)
  | [] => none
  | r :: rs =>
    if r.samples ≠ 0 then some (r, rs)
    else if r.info.frame_bytes ≠ 0 then first_split rs
    else none

/-- The answers kept by the rest loop. -/
def rest_kept (allow : Bool) (hz layer : Nat) : Nat → List DecodeResult → List DecodeResult
  | _, [] => []
  | ch, r :: rs =>
    if r.samples ≠ 0 then
      if r.info.hz ≠ hz ∨ r.info.layer ≠ layer then []
      else if (ch ≠ 0 ∧ ch ≠ r.info.channels) ∧ allow = false then []
      else
        r :: (if r.info.frame_bytes ≠ 0 then
          rest_kept allow hz layer (if ch ≠ 0 ∧ ch ≠ r.info.channels then 0 else ch) rs
        else [])
    else if r.info.frame_bytes ≠ 0 then rest_kept allow hz layer ch rs
    else []

/-- The answers whose samples the loader keeps. -/
def kept_frames (allow : Bool) (script : List DecodeResult) : List DecodeResult :=
  match first_split script with
  | none => []
  | some (f, rs) => f :: rest_kept allow f.info.hz f.info.layer f.info.channels rs

/-- Whether an answer of the decoder carries samples. -/
def yields_samples (r : DecodeResult) : Bool := decide (r.samples ≠ 0)

/-- Whether an answer of the decoder reports a non-zero frame length. -/
def has_bytes (r : DecodeResult) : Bool := decide (r.info.frame_bytes ≠ 0)

/-- Answers given before the decoder first reports a zero frame length. -/
def before_end (script : List DecodeResult) : List DecodeResult :=
  script.takeWhile has_bytes

/-- Whether a frame continues the stream whose saved parameters are `hz`, `layer`,
`channels`: same rate and layer, and the same channel count unless the build allows
mono/stereo transitions or no channel count is saved. -/
def same_stream (allow : Bool) (hz layer channels : Nat) (r : DecodeResult) : Bool :=
  decide (r.info.hz = hz) && decide (r.info.layer = layer) &&
    (allow || decide (channels = 0) || decide (r.info.channels = channels))

/-- The frames whose samples are added to the output, as the specification describes
them: of the answers before the end of stream, those that produced samples; of these,
the first one and the frames after it for as long as they continue its stream. -/
def accumulated (allow : Bool) (script : List DecodeResult) : List DecodeResult :=
  match (before_end script).filter yields_samples with
  | [] => []
  | f :: t => f :: t.takeWhile (same_stream allow f.info.hz f.info.layer f.info.channels)

/-- OS reads that stay inside the declared size: whenever a call issues a read, the read
returns between 0 and `SIZE` bytes and no more than the bytes not read yet. -/
def reads_within (map_info : mp3dec_map_info_t) : List (Int × Int) → ChunkState → Prop
  | [], _ => True
  | c :: cs, g =>
    (g.readed ≠ map_info.size → 0 ≤ c.2 ∧ c.2 ≤ SIZE ∧ g.readed + c.2 ≤ map_info.size) ∧
    reads_within map_info cs (mp3dec_read_chunk map_info c.1 c.2 g)

/-! ## Concrete inputs used to exercise the model -/

/-- A stereo 44100 Hz layer-3 frame of 417 bytes at 128 kbps with 1152 samples per
channel. -/
def frame_44k : DecodeResult :=
  { samples := 1152,
    info := { frame_bytes := 417, channels := 2, hz := 44100, layer := 3,
              bitrate_kbps := 128 } }

/-- A stereo 48000 Hz layer-3 frame of 576 bytes at 192 kbps. -/
def frame_48k : DecodeResult :=
  { samples := 1152,
    info := { frame_bytes := 576, channels := 2, hz := 48000, layer := 3,
              bitrate_kbps := 192 } }

/-- The decoder skipped 100 bytes without finding a frame. -/
def skipped_bytes : DecodeResult :=
  { samples := 0,
    info := { frame_bytes := 100, channels := 0, hz := 0, layer := 0, bitrate_kbps := 0 } }

/-- The decoder reports end of stream. -/
def end_of_stream : DecodeResult :=
  { samples := 0, info := mp3dec_frame_info_t.zero }

/-- A decoder for a stream of identical frames: it yields the frame `r` whenever at least
`r.info.frame_bytes` bytes remain and reports end of stream otherwise. -/
def cbr_decoder (r : DecodeResult) : FrameDecoder Unit where
  init := ()
  decode := fun _ _ n =>
    if r.info.frame_bytes ≤ n then ((), r.samples, r.info)
    else ((), 0, mp3dec_frame_info_t.zero)

/-- A frame search over a stream of back-to-back 417-byte stereo 44100 Hz frames: a frame
is located at the cursor whenever at least 417 bytes remain. -/
def cbr_search : FrameSearch :=
  { find := fun _ n => if 417 ≤ n then (0, 417) else (0, 0),
    channels := fun _ => 2, hz := fun _ => 44100, layer := fun _ => 3,
    bitrate_kbps := fun _ => 128 }

/-- A callback that counts its invocations in the user data and never asks to stop. -/
def counting_callback : Nat → IterCall → Nat × Int := fun n _ => (n + 1, 0)

/-- A callback that counts its invocations and asks to stop on the second one. -/
def stop_on_second : Nat → IterCall → Nat × Int :=
  fun n _ => (n + 1, if n + 1 = 2 then 1 else 0)

/-- File-scope variables at program start. -/
def chunk_init : ChunkState :=
  { pFile := 0, num := 0, readed := 0, reads := [], closed := false }

/-- A file of 70000 bytes that opens as descriptor 3 and whose first two reads fill a
whole chunk each. -/
def good_file : OsFile :=
  { orbisOpen := 3, fileSize := 70000, calloc_ok := true, window := [],
    read0 := 32768, read1 := 32768 }

/-! ## Theorems -/

/-! ### Metadata skip -/

theorem or_shift_eq_sum (a b c d : Nat) (hb : b < 128) (hc : c < 128) (hd : d < 128) :
    ((a <<< 21) ||| (b <<< 14) ||| (c <<< 7) ||| d)
      = a * 2 ^ 21 + b * 2 ^ 14 + c * 2 ^ 7 + d := by
  have h1 := @Nat.mul_add_lt_is_or 21 (b * 2 ^ 14) (by omega) a
  have h2 := @Nat.mul_add_lt_is_or 14 (c * 2 ^ 7) (by omega) (2 ^ 7 * a + b)
  have h3 := @Nat.mul_add_lt_is_or 7 d (by omega) (2 ^ 7 * (2 ^ 7 * a + b) + c)
  have e1 : a <<< 21 ||| b <<< 14 = 2 ^ 14 * (2 ^ 7 * a + b) := by
    rw [Nat.shiftLeft_eq, Nat.shiftLeft_eq, Nat.mul_comm a, ← h1]; omega
  have e2 : 2 ^ 14 * (2 ^ 7 * a + b) ||| c <<< 7
      = 2 ^ 7 * (2 ^ 7 * (2 ^ 7 * a + b) + c) := by
    rw [Nat.shiftLeft_eq, ← h2]; omega
  rw [e1, e2, ← h3]; omega

theorem and_7f_lt (x : Nat) : x &&& 0x7f < 128 :=
  Nat.lt_of_le_of_lt Nat.and_le_right (by decide)

theorem is_id3_of_take (buf : List Nat) (h : buf.take 3 = id3_signature) :
    is_id3 buf = true := by
  match buf, h with
  | a :: b :: c :: rest, h =>
    simp [id3_signature] at h
    obtain ⟨ha, hb, hc⟩ := h
    subst ha hb hc
    simp [is_id3, byte_at]

theorem skip_eq_of_id3 (buf : List Nat) (n : Nat) (hn : 10 < n)
    (hid : buf.take 3 = id3_signature) :
    mp3dec_skip_id3v2 buf n = synchsafe_size buf + 10 := by
  have h := is_id3_of_take buf hid
  unfold mp3dec_skip_id3v2 synchsafe_size
  rw [if_pos ⟨hn, h⟩, or_shift_eq_sum _ _ _ _ (and_7f_lt _) (and_7f_lt _) (and_7f_lt _)]

theorem size_sub_of_le (a b : Nat) (h : b ≤ a) : size_sub a b = a - b := by
  simp [size_sub, h]

/-! ### Unfolding the loops -/

theorem first_frame_succ {σ : Type} (D : FrameDecoder σ) (fuel : Nat) (st : LoadState σ) :
    first_frame D (fuel + 1) st =
      if (decode_next D none st).samples ≠ 0 then decode_next D none st
      else if (decode_next D none st).frame_info.frame_bytes ≠ 0 then
        first_frame D fuel (decode_next D none st)
      else decode_next D none st := rfl

theorem rest_frames_succ {σ : Type} (env : Env) (D : FrameDecoder σ) (cb : Bool)
    (orig : Nat) (fuel : Nat) (st : LoadState σ) :
    rest_frames env D cb orig (fuel + 1) st =
      if (grow_buffer env st).info.buffer = none then
        { grow_buffer env st with status := Status.fault }
      else
        if (decode_tail D (grow_buffer env st)).samples ≠ 0 then
          if stream_break env (decode_tail D (grow_buffer env st)) = true then
            decode_tail D (grow_buffer env st)
          else
            if (accumulate cb orig (decode_tail D (grow_buffer env st))).frame_info.frame_bytes
                ≠ 0 then
              rest_frames env D cb orig fuel
                (accumulate cb orig (decode_tail D (grow_buffer env st)))
            else accumulate cb orig (decode_tail D (grow_buffer env st))
        else if (decode_tail D (grow_buffer env st)).frame_info.frame_bytes ≠ 0 then
          rest_frames env D cb orig fuel (decode_tail D (grow_buffer env st))
        else decode_tail D (grow_buffer env st) := rfl

/-! ### Decoder calls are only ever appended -/

theorem decode_next_calls {σ : Type} (D : FrameDecoder σ) (dst : Option (Nat × Nat))
    (st : LoadState σ) :
    (decode_next D dst st).calls
      = st.calls ++ [{ buf := st.buf, buf_size := st.buf_size, dst := dst }] := rfl

theorem grow_buffer_calls {σ : Type} (env : Env) (st : LoadState σ) :
    (grow_buffer env st).calls = st.calls := by
  unfold grow_buffer; split <;> rfl

theorem decode_tail_calls {σ : Type} (env : Env) (D : FrameDecoder σ) (st : LoadState σ) :
    ∃ c, (decode_tail D (grow_buffer env st)).calls = st.calls ++ [c] :=
  ⟨_, by rw [decode_tail, decode_next_calls, grow_buffer_calls]⟩

theorem accumulate_calls {σ : Type} (cb : Bool) (orig : Nat) (st : LoadState σ) :
    (accumulate cb orig st).calls = st.calls := rfl

theorem first_frame_calls {σ : Type} (D : FrameDecoder σ) (fuel : Nat) (st : LoadState σ) :
    ∃ l, (first_frame D fuel st).calls = st.calls ++ l := by
  induction fuel generalizing st with
  | zero => exact ⟨[], by simp [first_frame]⟩
  | succ n ih =>
    rw [first_frame_succ]
    split
    · exact ⟨_, decode_next_calls D none st⟩
    · split
      · obtain ⟨l, hl⟩ := ih (decode_next D none st)
        exact ⟨[_] ++ l, by rw [hl, decode_next_calls, List.append_assoc]⟩
      · exact ⟨_, decode_next_calls D none st⟩

theorem first_frame_calls_head {σ : Type} (D : FrameDecoder σ) (fuel : Nat)
    (st : LoadState σ) :
    ∃ l, (first_frame D (fuel + 1) st).calls
      = st.calls ++ { buf := st.buf, buf_size := st.buf_size, dst := none } :: l := by
  rw [first_frame_succ]
  split
  · exact ⟨[], decode_next_calls D none st⟩
  · split
    · obtain ⟨l, hl⟩ := first_frame_calls D fuel (decode_next D none st)
      exact ⟨l, by rw [hl, decode_next_calls, List.append_assoc]; rfl⟩
    · exact ⟨[], decode_next_calls D none st⟩

theorem rest_frames_calls {σ : Type} (env : Env) (D : FrameDecoder σ) (cb : Bool)
    (orig : Nat) (fuel : Nat) (st : LoadState σ) :
    ∃ l, (rest_frames env D cb orig fuel st).calls = st.calls ++ l := by
  induction fuel generalizing st with
  | zero => exact ⟨[], by simp [rest_frames]⟩
  | succ n ih =>
    obtain ⟨c, hc⟩ := decode_tail_calls env D st
    rw [rest_frames_succ]
    split
    · exact ⟨[], by simp [grow_buffer_calls]⟩
    · split
      · split
        · exact ⟨_, hc⟩
        · split
          · obtain ⟨l, hl⟩ := ih (accumulate cb orig (decode_tail D (grow_buffer env st)))
            exact ⟨[c] ++ l, by rw [hl, accumulate_calls, hc, List.append_assoc]⟩
          · exact ⟨_, by rw [accumulate_calls, hc]⟩
      · split
        · obtain ⟨l, hl⟩ := ih (decode_tail D (grow_buffer env st))
          exact ⟨[c] ++ l, by rw [hl, hc, List.append_assoc]⟩
        · exact ⟨_, hc⟩

theorem finish_load_calls {σ : Type} (env : Env) (st : LoadState σ) :
    (finish_load env st).calls = st.calls := rfl

theorem load_frames_calls_head {σ : Type} (env : Env) (D : FrameDecoder σ) (cb : Bool)
    (orig : Nat) (fuel : Nat) (st : LoadState σ) :
    ∃ l, (load_frames env D cb orig (fuel + 1) st).calls
      = st.calls ++ { buf := st.buf, buf_size := st.buf_size, dst := none } :: l := by
  obtain ⟨l, hl⟩ := first_frame_calls_head D fuel { st with dec := D.init }
  obtain ⟨l2, hl2⟩ := rest_frames_calls env D cb orig (fuel + 1)
    (save_first env (first_frame D (fuel + 1) { st with dec := D.init }))
  have hs : (save_first env (first_frame D (fuel + 1) { st with dec := D.init })).calls
      = (first_frame D (fuel + 1) { st with dec := D.init }).calls := rfl
  rw [hs, hl] at hl2
  unfold load_frames
  simp only []
  split
  · exact ⟨l, hl⟩
  · split
    · exact ⟨l, hl⟩
    · split
      · exact ⟨l, hl⟩
      · split
        · exact ⟨l, hl⟩
        · split
          · exact ⟨l ++ l2, by rw [finish_load_calls, hl2]; simp⟩
          · exact ⟨l ++ l2, by rw [hl2]; simp⟩

theorem iterate_frames_finds {υ : Type} (S : FrameSearch) (cb : υ → IterCall → υ × Int)
    (fuel : Nat) (st : IterState υ) :
    ∃ l, (iterate_frames S cb fuel st).finds = st.finds ++ l := by
  induction fuel generalizing st with
  | zero => exact ⟨[], by simp [iterate_frames]⟩
  | succ n ih =>
    unfold iterate_frames
    simp only []
    split
    · obtain ⟨l, hl⟩ := ih
        { st with
          finds := st.finds ++ [(st.buf, st.buf_size)],
          buf := st.buf + (S.find st.buf st.buf_size).1,
          buf_size := size_sub st.buf_size (S.find st.buf st.buf_size).1 }
      exact ⟨[(st.buf, st.buf_size)] ++ l, by rw [hl, List.append_assoc]⟩
    · split
      · exact ⟨_, rfl⟩
      · split <;> exact ⟨_, rfl⟩

theorem iterate_frames_finds_head {υ : Type} (S : FrameSearch)
    (cb : υ → IterCall → υ × Int) (fuel : Nat) (st : IterState υ) :
    ∃ l, (iterate_frames S cb (fuel + 1) st).finds
      = st.finds ++ (st.buf, st.buf_size) :: l := by
  unfold iterate_frames
  simp only []
  split
  · obtain ⟨l, hl⟩ := iterate_frames_finds S cb fuel
      { st with
        finds := st.finds ++ [(st.buf, st.buf_size)],
        buf := st.buf + (S.find st.buf st.buf_size).1,
        buf_size := size_sub st.buf_size (S.find st.buf st.buf_size).1 }
    exact ⟨l, by rw [hl, List.append_assoc]; rfl⟩
  · split
    · exact ⟨[], rfl⟩
    · split <;> exact ⟨[], rfl⟩

/-! ### C1, C2: the metadata skip and the malformed-header abort -/

/-- C1, as stated, fails at a buffer of exactly ten bytes: the header `ID3 03 00 00` with
size field zero declares `S = 0`, yet `mp3dec_skip_id3v2` returns 0 instead of 10. -/
theorem C1_counterexample :
    10 ≤ [0x49, 0x44, 0x33, 3, 0, 0, 0, 0, 0, 0].length ∧
    List.take 3 [0x49, 0x44, 0x33, 3, 0, 0, 0, 0, 0, 0] = id3_signature ∧
    mp3dec_skip_id3v2 [0x49, 0x44, 0x33, 3, 0, 0, 0, 0, 0, 0] 10 = 0 ∧
    mp3dec_skip_id3v2 [0x49, 0x44, 0x33, 3, 0, 0, 0, 0, 0, 0] 10
      ≠ synchsafe_size [0x49, 0x44, 0x33, 3, 0, 0, 0, 0, 0, 0] + 10 := by
  decide

/-- C1 (amended): for every buffer of more than ten bytes that starts with `ID3`,
`mp3dec_skip_id3v2` returns `S + 10` with `S` the synchsafe size of bytes 6..9; and when
`S + 10` does not exceed the length, the first decoder call of `mp3dec_load_buf` and the
first frame search of `mp3dec_iterate_buf` start `S + 10` bytes into the buffer with the
remaining length reduced by as much. -/
theorem C1_skip_id3v2 {σ υ : Type} (env : Env) (D : FrameDecoder σ) (S : FrameSearch)
    (cb : υ → IterCall → υ × Int) (u : υ) (buf : List Nat) (progress_cb : Bool)
    (fuel : Nat) (hlen : 10 < buf.length) (hid : buf.take 3 = id3_signature) :
    mp3dec_skip_id3v2 buf buf.length = synchsafe_size buf + 10 ∧
    (synchsafe_size buf + 10 ≤ buf.length →
      (mp3dec_load_buf env D buf buf.length progress_cb (fuel + 1)).calls.head?
          = some { buf := synchsafe_size buf + 10,
                   buf_size := buf.length - (synchsafe_size buf + 10), dst := none } ∧
      (mp3dec_iterate_buf S (some cb) u buf buf.length (fuel + 1)).finds.head?
          = some (synchsafe_size buf + 10, buf.length - (synchsafe_size buf + 10))) := by
  have hs := skip_eq_of_id3 buf buf.length hlen hid
  refine ⟨hs, fun hle => ⟨?_, ?_⟩⟩
  · unfold mp3dec_load_buf
    simp only [hs]
    rw [if_neg (by omega)]
    obtain ⟨l, hl⟩ := load_frames_calls_head env D progress_cb buf.length fuel
      { load_init D buf.length with
        buf := synchsafe_size buf + 10,
        buf_size := size_sub buf.length (synchsafe_size buf + 10) }
    rw [hl]
    simp [load_init, size_sub_of_le _ _ hle]
  · unfold mp3dec_iterate_buf
    simp only [hs]
    rw [if_neg (by omega)]
    obtain ⟨l, hl⟩ := iterate_frames_finds_head S cb fuel
      { iterate_init u buf.length with
        buf := synchsafe_size buf + 10,
        buf_size := size_sub buf.length (synchsafe_size buf + 10) }
    rw [hl]
    simp [iterate_init, size_sub_of_le _ _ hle]

/-- C1 witness: an eleven-byte buffer whose header declares `S = 1`. -/
theorem C1_skip_id3v2_witness :
    10 < [0x49, 0x44, 0x33, 3, 0, 0, 0, 0, 0, 1, 0].length ∧
    List.take 3 [0x49, 0x44, 0x33, 3, 0, 0, 0, 0, 0, 1, 0] = id3_signature ∧
    mp3dec_skip_id3v2 [0x49, 0x44, 0x33, 3, 0, 0, 0, 0, 0, 1, 0]
        [0x49, 0x44, 0x33, 3, 0, 0, 0, 0, 0, 1, 0].length
      = synchsafe_size [0x49, 0x44, 0x33, 3, 0, 0, 0, 0, 0, 1, 0] + 10 :=
  ⟨by decide, by decide,
    (C1_skip_id3v2 default_env (script_decoder [])
      { find := fun _ _ => (0, 0), channels := fun _ => 2, hz := fun _ => 44100,
        layer := fun _ => 3, bitrate_kbps := fun _ => 128 }
      (fun (n : Nat) _ => (n, (0 : Int))) 0
      [0x49, 0x44, 0x33, 3, 0, 0, 0, 0, 0, 1, 0] false 0 (by decide) (by decide)).1⟩

/-- C2, as stated, fails at a buffer of exactly ten bytes: its header declares `S = 1`,
so `S + 10 = 11` exceeds the length, yet the skip is 0 and the frame decoder is invoked
on the ten bytes. -/
theorem C2_counterexample :
    List.take 3 [0x49, 0x44, 0x33, 3, 0, 0, 0, 0, 0, 1] = id3_signature ∧
    [0x49, 0x44, 0x33, 3, 0, 0, 0, 0, 0, 1].length
      < synchsafe_size [0x49, 0x44, 0x33, 3, 0, 0, 0, 0, 0, 1] + 10 ∧
    (mp3dec_load_buf default_env (script_decoder [])
        [0x49, 0x44, 0x33, 3, 0, 0, 0, 0, 0, 1] 10 false 1).calls
      = [{ buf := 0, buf_size := 10, dst := none }] := by
  decide

/-- C2 (amended): for every buffer of more than ten bytes whose `ID3` header declares a
size `S` with `S + 10` above the buffer length, `mp3dec_load_buf` returns at once: the
result is all zero with a null buffer, the frame decoder is never invoked, no callback
runs, and the remaining-length counter still holds the original length (nothing was
subtracted from it). -/
theorem C2_malformed_header {σ : Type} (env : Env) (D : FrameDecoder σ) (buf : List Nat)
    (progress_cb : Bool) (fuel : Nat) (hlen : 10 < buf.length)
    (hid : buf.take 3 = id3_signature)
    (hbig : buf.length < synchsafe_size buf + 10) :
    (mp3dec_load_buf env D buf buf.length progress_cb fuel).info = mp3dec_file_info_t.zero ∧
    (mp3dec_load_buf env D buf buf.length progress_cb fuel).calls = [] ∧
    (mp3dec_load_buf env D buf buf.length progress_cb fuel).progress = [] ∧
    (mp3dec_load_buf env D buf buf.length progress_cb fuel).buf_size = buf.length ∧
    (mp3dec_load_buf env D buf buf.length progress_cb fuel).status = Status.returned := by
  have hs := skip_eq_of_id3 buf buf.length hlen hid
  unfold mp3dec_load_buf
  simp only [hs]
  rw [if_pos (by omega)]
  simp [load_init]

/-- C2 witness: eleven bytes whose header declares `S = 2`. -/
theorem C2_malformed_header_witness :
    (mp3dec_load_buf default_env (script_decoder [])
        [0x49, 0x44, 0x33, 3, 0, 0, 0, 0, 0, 2, 0]
        [0x49, 0x44, 0x33, 3, 0, 0, 0, 0, 0, 2, 0].length true 5).info
      = mp3dec_file_info_t.zero :=
  (C2_malformed_header default_env (script_decoder [])
    [0x49, 0x44, 0x33, 3, 0, 0, 0, 0, 0, 2, 0] true 5 (by decide) (by decide)
    (by decide)).1

/-! ### Capacity invariant of the rest-frames loop -/

theorem grow_buffer_inv {σ : Type} (env : Env) (st : LoadState σ) (h : LoadInv env st) :
    LoadInv env (grow_buffer env st) ∧
    (grow_buffer env st).info.samples * env.sizeof_sample
      + env.MINIMP3_MAX_SAMPLES_PER_FRAME * env.sizeof_sample
      ≤ (grow_buffer env st).allocated := by
  obtain ⟨h1, h2, h3, h4, a0, h5, h6⟩ := h
  unfold grow_buffer
  rw [size_sub_of_le _ _ h2]
  split
  · rename_i hlt
    refine ⟨⟨?_, ?_, h3, ?_, a0, ?_, ?_⟩, ?_⟩
    · simp only []; omega
    · simp only []; omega
    · intro g hg
      simp only [List.mem_append, List.mem_singleton] at hg
      rcases hg with hg | hg
      · exact h4 g hg
      · subst hg; exact ⟨h2, hlt⟩
    · simp only []
      cases hal : st.allocs with
      | nil => rw [hal] at h5; simp at h5
      | cons x xs => rw [hal] at h5; simpa using h5
    · simp only [List.length_append, List.length_singleton, pow_succ]
      rw [h6]; ring
    · simp only []; omega
  · rename_i hlt
    exact ⟨⟨h1, h2, h3, h4, a0, h5, h6⟩, by omega⟩

theorem decode_tail_inv {σ : Type} (env : Env) (D : FrameDecoder σ) (st : LoadState σ)
    (h : LoadInv env st)
    (hroom : st.info.samples * env.sizeof_sample
      + env.MINIMP3_MAX_SAMPLES_PER_FRAME * env.sizeof_sample ≤ st.allocated) :
    LoadInv env (decode_tail D st) := by
  obtain ⟨h1, h2, h3, h4, h5⟩ := h
  refine ⟨h1, h2, ?_, h4, h5⟩
  intro c hc a u hd
  simp only [decode_tail, decode_next, List.mem_append, List.mem_singleton] at hc
  rcases hc with hc | hc
  · exact h3 c hc a u hd
  · subst hc
    simp only [Option.some.injEq, Prod.mk.injEq] at hd
    obtain ⟨ha, hu⟩ := hd
    subst ha hu
    exact hroom

theorem accumulate_inv {σ : Type} (env : Env) (cb : Bool) (orig : Nat) (st : LoadState σ)
    (h : LoadInv env st)
    (hroom : st.info.samples * env.sizeof_sample
      + env.MINIMP3_MAX_SAMPLES_PER_FRAME * env.sizeof_sample ≤ st.allocated)
    (hmax : st.samples * st.frame_info.channels ≤ env.MINIMP3_MAX_SAMPLES_PER_FRAME) :
    LoadInv env (accumulate cb orig st) := by
  obtain ⟨h1, h2, h3, h4, h5⟩ := h
  refine ⟨h1, ?_, h3, h4, h5⟩
  simp only [accumulate]
  have := Nat.mul_le_mul_right env.sizeof_sample hmax
  rw [Nat.add_mul]
  omega

theorem rest_frames_inv {σ : Type} (env : Env) (D : FrameDecoder σ) (cb : Bool)
    (orig : Nat)
    (hmax : ∀ d b n, (D.decode d b n).2.1 * (D.decode d b n).2.2.channels
      ≤ env.MINIMP3_MAX_SAMPLES_PER_FRAME)
    (fuel : Nat) (st : LoadState σ) (h : LoadInv env st) :
    LoadInv env (rest_frames env D cb orig fuel st) := by
  induction fuel generalizing st with
  | zero => exact h
  | succ n ih =>
    obtain ⟨hg, hroom⟩ := grow_buffer_inv env st h
    have hd := decode_tail_inv env D _ hg hroom
    have hroom2 : (decode_tail D (grow_buffer env st)).info.samples * env.sizeof_sample
        + env.MINIMP3_MAX_SAMPLES_PER_FRAME * env.sizeof_sample
        ≤ (decode_tail D (grow_buffer env st)).allocated := hroom
    have hm : (decode_tail D (grow_buffer env st)).samples
        * (decode_tail D (grow_buffer env st)).frame_info.channels
        ≤ env.MINIMP3_MAX_SAMPLES_PER_FRAME := hmax _ _ _
    have ha := accumulate_inv env cb orig _ hd hroom2 hm
    rw [rest_frames_succ]
    split
    · exact hg
    · split
      · split
        · exact hd
        · split
          · exact ih _ ha
          · exact ha
      · split
        · exact ih _ hd
        · exact hd

theorem first_frame_keeps {σ : Type} (D : FrameDecoder σ) (fuel : Nat) (st : LoadState σ) :
    (first_frame D fuel st).info = st.info ∧
    (first_frame D fuel st).allocated = st.allocated ∧
    (first_frame D fuel st).avg_bitrate_kbps = st.avg_bitrate_kbps ∧
    (first_frame D fuel st).frames = st.frames ∧
    (first_frame D fuel st).allocs = st.allocs ∧
    (first_frame D fuel st).grows = st.grows ∧
    (first_frame D fuel st).progress = st.progress := by
  induction fuel generalizing st with
  | zero => simp [first_frame]
  | succ n ih =>
    rw [first_frame_succ]
    split
    · simp [decode_next]
    · split
      · have := ih (decode_next D none st)
        simpa [decode_next] using this
      · simp [decode_next]

theorem first_frame_dst {σ : Type} (D : FrameDecoder σ) (fuel : Nat) (st : LoadState σ)
    (h : ∀ c ∈ st.calls, c.dst = none) :
    ∀ c ∈ (first_frame D fuel st).calls, c.dst = none := by
  induction fuel generalizing st with
  | zero => simpa [first_frame] using h
  | succ n ih =>
    have hd : ∀ c ∈ (decode_next D none st).calls, c.dst = none := by
      intro c hc
      simp only [decode_next, List.mem_append, List.mem_singleton] at hc
      rcases hc with hc | hc
      · exact h c hc
      · subst hc; rfl
    rw [first_frame_succ]
    split
    · exact hd
    · split
      · exact ih _ hd
      · exact hd

theorem first_frame_max {σ : Type} (D : FrameDecoder σ) (m : Nat)
    (hmax : ∀ d b n, (D.decode d b n).2.1 * (D.decode d b n).2.2.channels ≤ m)
    (fuel : Nat) (st : LoadState σ) (h : st.samples * st.frame_info.channels ≤ m) :
    (first_frame D fuel st).samples * (first_frame D fuel st).frame_info.channels ≤ m := by
  induction fuel generalizing st with
  | zero => simpa [first_frame] using h
  | succ n ih =>
    have hd : (decode_next D none st).samples * (decode_next D none st).frame_info.channels
        ≤ m := hmax _ _ _
    rw [first_frame_succ]
    split
    · exact hd
    · split
      · exact ih _ hd
      · exact hd

theorem save_first_inv {σ : Type} (env : Env) (st : LoadState σ)
    (hcalls : ∀ c ∈ st.calls, c.dst = none) (hallocs : st.allocs = [])
    (hgrows : st.grows = [])
    (hmax : st.samples * st.frame_info.channels ≤ env.MINIMP3_MAX_SAMPLES_PER_FRAME) :
    LoadInv env (save_first env st) := by
  refine ⟨?_, ?_, ?_, ?_, first_allocated env st, ?_, ?_⟩
  · simp [save_first, first_allocated]
  · simp only [save_first, first_allocated]
    have := Nat.mul_le_mul_right env.sizeof_sample hmax
    omega
  · intro c hc a u hd
    have := hcalls c hc
    rw [this] at hd
    simp at hd
  · intro g hg
    simp [save_first, hgrows] at hg
  · simp [save_first, hallocs]
  · simp [save_first, hgrows]

/-- C10: when every decoder call yields at most `MINIMP3_MAX_SAMPLES_PER_FRAME` samples
(channels included), then in every run of `mp3dec_load_buf`: each decoder call of the
rest-frames loop, made with capacity `a` and `u` samples used, has
`u * sizeof + MAX * sizeof ≤ a`, so a maximal frame written at the tail stays inside the
block; each doubling happened with `used ≤ capacity` and headroom below `MAX * sizeof`;
and the capacity equals the first size requested from `malloc` (the initial estimate)
times `2 ^ n` after `n` doublings. -/
theorem C10_capacity {σ : Type} (env : Env) (D : FrameDecoder σ) (buf : List Nat)
    (buf_size : Nat) (progress_cb : Bool) (fuel : Nat)
    (hmax : ∀ d b n, (D.decode d b n).2.1 * (D.decode d b n).2.2.channels
      ≤ env.MINIMP3_MAX_SAMPLES_PER_FRAME) :
    (∀ c ∈ (mp3dec_load_buf env D buf buf_size progress_cb fuel).calls, ∀ a u,
      c.dst = some (a, u) →
        u * env.sizeof_sample + env.MINIMP3_MAX_SAMPLES_PER_FRAME * env.sizeof_sample ≤ a) ∧
    (∀ g ∈ (mp3dec_load_buf env D buf buf_size progress_cb fuel).grows,
      g.samples * env.sizeof_sample ≤ g.allocated ∧
      g.allocated - g.samples * env.sizeof_sample
        < env.MINIMP3_MAX_SAMPLES_PER_FRAME * env.sizeof_sample) ∧
    (∀ a0, (mp3dec_load_buf env D buf buf_size progress_cb fuel).allocs.head? = some a0 →
      (mp3dec_load_buf env D buf buf_size progress_cb fuel).allocated
        = a0 * 2 ^ (mp3dec_load_buf env D buf buf_size progress_cb fuel).grows.length) := by
  unfold mp3dec_load_buf
  simp only []
  split
  · simp [load_init]
  · generalize hst0 : ({ load_init D buf_size with
        buf := mp3dec_skip_id3v2 buf buf_size,
        buf_size := size_sub buf_size (mp3dec_skip_id3v2 buf buf_size) } : LoadState σ) = st0
    have h0c : ∀ c ∈ ({ st0 with dec := D.init } : LoadState σ).calls, c.dst = none := by
      subst hst0; simp [load_init]
    have h0m : ({ st0 with dec := D.init } : LoadState σ).samples
        * ({ st0 with dec := D.init } : LoadState σ).frame_info.channels
        ≤ env.MINIMP3_MAX_SAMPLES_PER_FRAME := by
      subst hst0; simp [load_init]
    have hk := first_frame_keeps D fuel { st0 with dec := D.init }
    have hc := first_frame_dst D fuel { st0 with dec := D.init } h0c
    have hm := first_frame_max D _ hmax fuel { st0 with dec := D.init } h0m
    have ha : (first_frame D fuel { st0 with dec := D.init }).allocs = [] := by
      rw [hk.2.2.2.2.1]; subst hst0; rfl
    have hg : (first_frame D fuel { st0 with dec := D.init }).grows = [] := by
      rw [hk.2.2.2.2.2.1]; subst hst0; rfl
    have hal : (first_frame D fuel { st0 with dec := D.init }).allocated = 0 := by
      rw [hk.2.1]; subst hst0; rfl
    unfold load_frames
    simp only []
    generalize first_frame D fuel { st0 with dec := D.init } = st1 at *
    have hinv := rest_frames_inv env D progress_cb buf_size hmax fuel _
      (save_first_inv env st1 hc ha hg hm)
    have early : (∀ c ∈ st1.calls, ∀ a u, c.dst = some (a, u) →
        u * env.sizeof_sample + env.MINIMP3_MAX_SAMPLES_PER_FRAME * env.sizeof_sample ≤ a) ∧
      (∀ g ∈ st1.grows, g.samples * env.sizeof_sample ≤ g.allocated ∧
        g.allocated - g.samples * env.sizeof_sample
          < env.MINIMP3_MAX_SAMPLES_PER_FRAME * env.sizeof_sample) ∧
      (∀ a0, st1.allocs.head? = some a0 → st1.allocated = a0 * 2 ^ st1.grows.length) := by
      refine ⟨?_, ?_, ?_⟩
      · intro c hcm a u hd
        rw [hc c hcm] at hd; simp at hd
      · intro g hgm; rw [hg] at hgm; simp at hgm
      · intro a0 h; rw [ha] at h; simp at h
    split
    · exact early
    · split
      · exact early
      · split
        · exact early
        · split
          · refine ⟨early.1, early.2.1, ?_⟩
            intro a0 h
            simp only [ha, hg] at h ⊢
            simp at h
            simp [h]
          · obtain ⟨_, _, i3, i4, a0, i5, i6⟩ := hinv
            split
            · refine ⟨i3, i4, ?_⟩
              intro a1 h1
              have : (finish_load env (rest_frames env D progress_cb buf_size fuel
                  (save_first env st1))).allocs.head? = some a0 := by
                simp only [finish_load]
                split
                · cases hx : (rest_frames env D progress_cb buf_size fuel
                      (save_first env st1)).allocs with
                  | nil => rw [hx] at i5; simp at i5
                  | cons x xs => rw [hx] at i5; simpa using i5
                · exact i5
              rw [this] at h1
              simp only [Option.some.injEq] at h1
              subst h1
              exact i6
            · refine ⟨i3, i4, ?_⟩
              intro a1 h1
              rw [i5] at h1
              simp only [Option.some.injEq] at h1
              subst h1
              exact i6

/-! ### Progress callbacks -/

theorem decode_next_cursor {σ : Type} (D : FrameDecoder σ)
    (hfit : ∀ d b n, (D.decode d b n).2.2.frame_bytes ≤ n) (dst : Option (Nat × Nat))
    (orig : Nat) (st : LoadState σ) (h : st.buf + st.buf_size = orig) :
    (decode_next D dst st).buf + (decode_next D dst st).buf_size = orig := by
  have := hfit st.dec st.buf st.buf_size
  simp only [decode_next, size_sub_of_le _ _ this]
  omega

theorem first_frame_cursor {σ : Type} (D : FrameDecoder σ)
    (hfit : ∀ d b n, (D.decode d b n).2.2.frame_bytes ≤ n) (orig : Nat)
    (fuel : Nat) (st : LoadState σ) (h : st.buf + st.buf_size = orig) :
    (first_frame D fuel st).buf + (first_frame D fuel st).buf_size = orig := by
  induction fuel generalizing st with
  | zero => simpa [first_frame] using h
  | succ n ih =>
    have hd := decode_next_cursor D hfit none orig st h
    rw [first_frame_succ]
    split
    · exact hd
    · split
      · exact ih _ hd
      · exact hd

theorem grow_buffer_progress {σ : Type} (env : Env) (orig : Nat) (st : LoadState σ)
    (h : ProgressInv orig st) : ProgressInv orig (grow_buffer env st) := by
  unfold grow_buffer
  split
  · exact h
  · exact h

theorem decode_tail_progress {σ : Type} (D : FrameDecoder σ)
    (hfit : ∀ d b n, (D.decode d b n).2.2.frame_bytes ≤ n) (orig : Nat)
    (st : LoadState σ) (h : ProgressInv orig st) :
    ProgressInv orig (decode_tail D st) := by
  obtain ⟨h1, h2, h3⟩ := h
  refine ⟨decode_next_cursor D hfit _ orig st h1, h2, ?_⟩
  intro p hp
  obtain ⟨hf, c, hc, hd, ho⟩ := h3 p hp
  exact ⟨hf, c, by simp [decode_tail, decode_next, hc], hd, ho⟩

theorem accumulate_progress {σ : Type} (D : FrameDecoder σ)
    (hfit : ∀ d b n, (D.decode d b n).2.2.frame_bytes ≤ n) (orig : Nat)
    (st : LoadState σ) (h : ProgressInv orig st) :
    ProgressInv orig (accumulate true orig (decode_tail D st)) := by
  have hd := decode_tail_progress D hfit orig st h
  obtain ⟨h1, h2, h3⟩ := hd
  obtain ⟨g1, _, _⟩ := h
  refine ⟨h1, ?_, ?_⟩
  · simp only [accumulate, if_true, List.length_append, List.length_singleton]
    omega
  · intro p hp
    simp only [accumulate, if_true, List.mem_append, List.mem_singleton] at hp
    rcases hp with hp | hp
    · exact h3 p hp
    · subst hp
      refine ⟨rfl, ⟨st.buf, st.buf_size, some (st.allocated, st.info.samples)⟩, ?_, ?_, ?_⟩
      · simp [accumulate, decode_tail, decode_next]
      · simp
      · have hle : (decode_tail D st).buf_size ≤ orig := by omega
        simp only [size_sub_of_le _ _ hle]
        have hb : (decode_tail D st).buf
            = st.buf + (decode_tail D st).frame_info.frame_bytes := rfl
        omega

theorem rest_frames_progress {σ : Type} (env : Env) (D : FrameDecoder σ)
    (hfit : ∀ d b n, (D.decode d b n).2.2.frame_bytes ≤ n) (orig : Nat)
    (fuel : Nat) (st : LoadState σ) (h : ProgressInv orig st) :
    ProgressInv orig (rest_frames env D true orig fuel st) := by
  induction fuel generalizing st with
  | zero => exact h
  | succ n ih =>
    have hg := grow_buffer_progress env orig st h
    have hd := decode_tail_progress D hfit orig _ hg
    have ha := accumulate_progress D hfit orig _ hg
    rw [rest_frames_succ]
    split
    · exact hg
    · split
      · split
        · exact hd
        · split
          · exact ih _ ha
          · exact ha
      · split
        · exact ih _ hd
        · exact hd

theorem rest_frames_no_progress {σ : Type} (env : Env) (D : FrameDecoder σ) (orig : Nat)
    (fuel : Nat) (st : LoadState σ) :
    (rest_frames env D false orig fuel st).progress = st.progress := by
  induction fuel generalizing st with
  | zero => rfl
  | succ n ih =>
    have hg : (grow_buffer env st).progress = st.progress := by
      unfold grow_buffer; split <;> rfl
    rw [rest_frames_succ]
    split
    · exact hg
    · split
      · split
        · exact hg
        · split
          · rw [ih]; exact hg
          · exact hg
      · split
        · rw [ih]; exact hg
        · exact hg

/-- C7 (amended): with a non-null progress callback and a decoder that never reports more
bytes than remain, `mp3dec_load_buf` invokes the callback once per accumulated frame
except the first: no invocation when no frame was accumulated, otherwise one fewer than
the final frame counter.  Each invocation receives the original buffer length as total
size, and as offset the cursor of a rest-loop decoder call plus the bytes that call
consumed, i.e. the input bytes consumed up to and including that frame. -/
theorem C7_progress {σ : Type} (env : Env) (D : FrameDecoder σ) (buf : List Nat)
    (buf_size : Nat) (fuel : Nat)
    (hfit : ∀ d b n, (D.decode d b n).2.2.frame_bytes ≤ n) :
    ((mp3dec_load_buf env D buf buf_size true fuel).frames = 0 →
      (mp3dec_load_buf env D buf buf_size true fuel).progress = []) ∧
    ((mp3dec_load_buf env D buf buf_size true fuel).frames ≠ 0 →
      (mp3dec_load_buf env D buf buf_size true fuel).progress.length + 1
        = (mp3dec_load_buf env D buf buf_size true fuel).frames) ∧
    (∀ p ∈ (mp3dec_load_buf env D buf buf_size true fuel).progress,
      p.file_size = buf_size ∧
      ∃ c ∈ (mp3dec_load_buf env D buf buf_size true fuel).calls,
        c.dst ≠ none ∧ p.offset = c.buf + p.info.frame_bytes) := by
  unfold mp3dec_load_buf
  simp only []
  split
  · simp [load_init]
  · rename_i hskip
    generalize hst0 : ({ load_init D buf_size with
        buf := mp3dec_skip_id3v2 buf buf_size,
        buf_size := size_sub buf_size (mp3dec_skip_id3v2 buf buf_size) } : LoadState σ) = st0
    have hcur0 : ({ st0 with dec := D.init } : LoadState σ).buf
        + ({ st0 with dec := D.init } : LoadState σ).buf_size = buf_size := by
      subst hst0
      simp only [size_sub_of_le _ _ (Nat.le_of_not_lt hskip)]
      omega
    have hk := first_frame_keeps D fuel { st0 with dec := D.init }
    have hcur := first_frame_cursor D hfit buf_size fuel _ hcur0
    have hp : (first_frame D fuel { st0 with dec := D.init }).progress = [] := by
      rw [hk.2.2.2.2.2.2]; subst hst0; rfl
    have hf : (first_frame D fuel { st0 with dec := D.init }).frames = 0 := by
      rw [hk.2.2.2.1]; subst hst0; rfl
    unfold load_frames
    simp only []
    generalize first_frame D fuel { st0 with dec := D.init } = st1 at *
    have hinv0 : ProgressInv buf_size (save_first env st1) :=
      ⟨hcur, by simp [save_first, hp], by simp [save_first, hp]⟩
    obtain ⟨i1, i2, i3⟩ := rest_frames_progress env D hfit buf_size fuel _ hinv0
    have early : (st1.frames = 0 → st1.progress = []) ∧
        (st1.frames ≠ 0 → st1.progress.length + 1 = st1.frames) ∧
        (∀ p ∈ st1.progress, p.file_size = buf_size ∧
          ∃ c ∈ st1.calls, c.dst ≠ none ∧ p.offset = c.buf + p.info.frame_bytes) := by
      simp [hp, hf]
    split
    · exact early
    · split
      · exact early
      · split
        · exact early
        · split
          · exact early
          · split
            · exact ⟨fun h => by simp only [finish_load] at h; omega,
                fun _ => i2, i3⟩
            · exact ⟨fun h => by omega, fun _ => i2, i3⟩

/-! ### Runs against a scripted decoder -/

theorem grow_buffer_fields {σ : Type} (env : Env) (st : LoadState σ) :
    (grow_buffer env st).dec = st.dec ∧
    (grow_buffer env st).info.samples = st.info.samples ∧
    (grow_buffer env st).info.channels = st.info.channels ∧
    (grow_buffer env st).info.hz = st.info.hz ∧
    (grow_buffer env st).info.layer = st.info.layer ∧
    (grow_buffer env st).frames = st.frames ∧
    (grow_buffer env st).avg_bitrate_kbps = st.avg_bitrate_kbps ∧
    (grow_buffer env st).status = st.status ∧
    ((∀ n, env.alloc n = true) → st.info.buffer ≠ none →
      (grow_buffer env st).info.buffer ≠ none) := by
  unfold grow_buffer
  split
  · refine ⟨rfl, rfl, rfl, rfl, rfl, rfl, rfl, rfl, ?_⟩
    intro ha _
    simp [ha]
  · exact ⟨rfl, rfl, rfl, rfl, rfl, rfl, rfl, rfl, fun _ h => h⟩

theorem rest_frames_script (env : Env) (s0 : List DecodeResult) (cb : Bool) (orig : Nat)
    (halloc : ∀ n, env.alloc n = true) (s : List DecodeResult) :
    ∀ (fuel : Nat) (st : LoadState (List DecodeResult)), st.dec = s → s.length < fuel →
      st.info.buffer ≠ none → st.status = Status.returned →
      (rest_frames env (script_decoder s0) cb orig fuel st).status = Status.returned ∧
      (rest_frames env (script_decoder s0) cb orig fuel st).info.buffer ≠ none ∧
      (rest_frames env (script_decoder s0) cb orig fuel st).info.samples
        = st.info.samples + ((rest_kept env.MINIMP3_ALLOW_MONO_STEREO_TRANSITION
            st.info.hz st.info.layer st.info.channels s).map
              fun x => x.samples * x.info.channels).sum ∧
      (rest_frames env (script_decoder s0) cb orig fuel st).frames
        = st.frames + (rest_kept env.MINIMP3_ALLOW_MONO_STEREO_TRANSITION
            st.info.hz st.info.layer st.info.channels s).length ∧
      (rest_frames env (script_decoder s0) cb orig fuel st).avg_bitrate_kbps
        = st.avg_bitrate_kbps + ((rest_kept env.MINIMP3_ALLOW_MONO_STEREO_TRANSITION
            st.info.hz st.info.layer st.info.channels s).map
              fun x => x.info.bitrate_kbps).sum ∧
      (rest_frames env (script_decoder s0) cb orig fuel st).info.hz = st.info.hz ∧
      (rest_frames env (script_decoder s0) cb orig fuel st).info.layer = st.info.layer ∧
      ((env.MINIMP3_ALLOW_MONO_STEREO_TRANSITION = false ∨
          ∀ x ∈ rest_kept env.MINIMP3_ALLOW_MONO_STEREO_TRANSITION
            st.info.hz st.info.layer st.info.channels s,
            x.info.channels = st.info.channels) →
        (rest_frames env (script_decoder s0) cb orig fuel st).info.channels
          = st.info.channels) := by
  induction s with
  | nil =>
    intro fuel st hdec hfuel hbuf hst
    obtain ⟨n, rfl⟩ : ∃ n, fuel = n + 1 := ⟨fuel - 1, by simp at hfuel; omega⟩
    obtain ⟨g1, g2, g3, g4, g5, g6, g7, g8, g9⟩ := grow_buffer_fields env st
    have hb := g9 halloc hbuf
    have hd : (decode_tail (script_decoder s0) (grow_buffer env st)).samples = 0 ∧
        (decode_tail (script_decoder s0) (grow_buffer env st)).frame_info.frame_bytes = 0 ∧
        (decode_tail (script_decoder s0) (grow_buffer env st)).info
          = (grow_buffer env st).info ∧
        (decode_tail (script_decoder s0) (grow_buffer env st)).frames
          = (grow_buffer env st).frames ∧
        (decode_tail (script_decoder s0) (grow_buffer env st)).avg_bitrate_kbps
          = (grow_buffer env st).avg_bitrate_kbps ∧
        (decode_tail (script_decoder s0) (grow_buffer env st)).status
          = (grow_buffer env st).status := by
      simp [decode_tail, decode_next, g1, hdec, script_decoder, mp3dec_frame_info_t.zero]
    obtain ⟨d1, d2, d3, d4, d5, d6⟩ := hd
    rw [rest_frames_succ, if_neg hb, if_neg (by simp [d1]), if_neg (by simp [d2])]
    simp [rest_kept, d3, d4, d5, d6, g2, g3, g4, g5, g6, g7, g8, hst, hb]
  | cons r rs ih =>
    intro fuel st hdec hfuel hbuf hst
    obtain ⟨n, rfl⟩ : ∃ n, fuel = n + 1 := ⟨fuel - 1, by simp at hfuel; omega⟩
    have hn : rs.length < n := by simp at hfuel; omega
    obtain ⟨g1, g2, g3, g4, g5, g6, g7, g8, g9⟩ := grow_buffer_fields env st
    have hb := g9 halloc hbuf
    have hd : (decode_tail (script_decoder s0) (grow_buffer env st)).dec = rs ∧
        (decode_tail (script_decoder s0) (grow_buffer env st)).samples = r.samples ∧
        (decode_tail (script_decoder s0) (grow_buffer env st)).frame_info = r.info ∧
        (decode_tail (script_decoder s0) (grow_buffer env st)).info
          = (grow_buffer env st).info ∧
        (decode_tail (script_decoder s0) (grow_buffer env st)).frames
          = (grow_buffer env st).frames ∧
        (decode_tail (script_decoder s0) (grow_buffer env st)).avg_bitrate_kbps
          = (grow_buffer env st).avg_bitrate_kbps ∧
        (decode_tail (script_decoder s0) (grow_buffer env st)).status
          = (grow_buffer env st).status := by
      simp [decode_tail, decode_next, g1, hdec, script_decoder]
    obtain ⟨d0, d1, d2, d3, d4, d5, d6⟩ := hd
    rw [rest_frames_succ, if_neg hb]
    generalize decode_tail (script_decoder s0) (grow_buffer env st) = d at *
    generalize grow_buffer env st = g at *
    simp only [rest_kept]
    by_cases hs : r.samples = 0
    · rw [if_neg (by simp [d1, hs])]
      simp only [hs, ne_eq, not_true_eq_false, if_false]
      by_cases hfb : r.info.frame_bytes = 0
      · rw [if_neg (by simp [d2, hfb])]
        simp [hfb, d3, d4, d5, d6, g2, g3, g4, g5, g6, g7, g8, hst, hb]
      · rw [if_pos (by simp [d2, hfb])]
        have := ih n d d0 hn (by rw [d3]; exact hb) (by rw [d6, g8]; exact hst)
        simp only [hfb, ne_eq, not_false_eq_true, if_true]
        simpa [d3, d4, d5, g2, g3, g4, g5, g6, g7] using this
    · rw [if_pos (by simp [d1, hs])]
      simp only [hs, ne_eq, not_false_eq_true, if_true]
      have hbrk : stream_break env d = true ↔
          ((r.info.hz ≠ st.info.hz ∨ r.info.layer ≠ st.info.layer) ∨
            ((st.info.channels ≠ 0 ∧ st.info.channels ≠ r.info.channels) ∧
              env.MINIMP3_ALLOW_MONO_STEREO_TRANSITION = false)) := by
        simp only [stream_break, d2, d3, g3, g4, g5, Bool.or_eq_true, Bool.and_eq_true,
          decide_eq_true_eq, Bool.not_eq_true']
        constructor
        · rintro (h | h)
          · left; rcases h with h | h
            · left; exact fun e => h e.symm
            · right; exact fun e => h e.symm
          · right; exact h
        · rintro (h | h)
          · left; rcases h with h | h
            · left; exact fun e => h e.symm
            · right; exact fun e => h e.symm
          · right; exact h
      by_cases hrl : r.info.hz ≠ st.info.hz ∨ r.info.layer ≠ st.info.layer
      · rw [if_pos (hbrk.2 (Or.inl hrl)), if_pos hrl]
        simp [d3, d4, d5, d6, g2, g3, g4, g5, g6, g7, g8, hst, hb]
      · rw [if_neg hrl]
        by_cases hch : (st.info.channels ≠ 0 ∧ st.info.channels ≠ r.info.channels) ∧
            env.MINIMP3_ALLOW_MONO_STEREO_TRANSITION = false
        · rw [if_pos (hbrk.2 (Or.inr hch)), if_pos hch]
          simp [d3, d4, d5, d6, g2, g3, g4, g5, g6, g7, g8, hst, hb]
        · rw [if_neg (by rw [hbrk]; tauto), if_neg hch]
          have a0 : (accumulate cb orig d).dec = rs := d0
          have a2 : (accumulate cb orig d).frame_info = r.info := d2
          have a3 : (accumulate cb orig d).info.buffer ≠ none := by
            show d.info.buffer ≠ none
            rw [d3]; exact hb
          have a4 : (accumulate cb orig d).status = Status.returned := by
            show d.status = _
            rw [d6, g8]; exact hst
          have a5 : (accumulate cb orig d).info.samples
              = st.info.samples + r.samples * r.info.channels := by
            show d.info.samples + d.samples * d.frame_info.channels = _
            rw [d3, d1, d2, g2]
          have a6 : (accumulate cb orig d).frames = st.frames + 1 := by
            show d.frames + 1 = _
            rw [d4, g6]
          have a7 : (accumulate cb orig d).avg_bitrate_kbps
              = st.avg_bitrate_kbps + r.info.bitrate_kbps := by
            show d.avg_bitrate_kbps + d.frame_info.bitrate_kbps = _
            rw [d5, d2, g7]
          have a8 : (accumulate cb orig d).info.hz = st.info.hz := by
            show d.info.hz = _
            rw [d3, g4]
          have a9 : (accumulate cb orig d).info.layer = st.info.layer := by
            show d.info.layer = _
            rw [d3, g5]
          have a10 : (accumulate cb orig d).info.channels
              = if st.info.channels ≠ 0 ∧ st.info.channels ≠ r.info.channels then 0
                else st.info.channels := by
            show (if d.info.channels ≠ 0 ∧ d.info.channels ≠ d.frame_info.channels then 0
                else d.info.channels) = _
            rw [d3, d2, g3]
          by_cases hfb : r.info.frame_bytes = 0
          · rw [if_neg (by rw [a2]; simp [hfb])]
            simp only [hfb, ne_eq, not_true_eq_false, if_false]
            refine ⟨a4, a3, ?_, ?_, ?_, a8, a9, ?_⟩
            · rw [a5]; simp
            · rw [a6]; simp
            · rw [a7]; simp
            · intro h
              rw [a10]
              rcases h with h | h
              · rw [if_neg (by tauto)]
              · have := h r (by simp)
                rw [if_neg (by omega)]
          · rw [if_pos (by rw [a2]; simp [hfb])]
            simp only [hfb, ne_eq, not_false_eq_true, if_true]
            have := ih n (accumulate cb orig d) a0 hn a3 a4
            rw [a8, a9, a10, a5, a6, a7] at this
            obtain ⟨i1, i2, i3, i4, i5, i6, i7, i8⟩ := this
            refine ⟨i1, i2, ?_, ?_, ?_, i6, i7, ?_⟩
            · rw [i3]; simp [Nat.add_assoc]
            · rw [i4]; simp; omega
            · rw [i5]; simp [Nat.add_assoc]
            · intro h
              have hc : (if st.info.channels ≠ 0 ∧ st.info.channels ≠ r.info.channels
                  then 0 else st.info.channels) = st.info.channels := by
                rcases h with h | h
                · rw [if_neg (by tauto)]
                · have := h r (by simp)
                  rw [if_neg (by omega)]
              rw [hc] at i8
              rw [i8]
              rcases h with h | h
              · exact Or.inl h
              · right
                intro x hx
                apply h x
                rw [hc]
                simp [hx]

theorem first_split_some (s : List DecodeResult) (f : DecodeResult)
    (rs : List DecodeResult) (h : first_split s = some (f, rs)) :
    f.samples ≠ 0 ∧ rs.length < s.length := by
  induction s with
  | nil => simp [first_split] at h
  | cons r t ih =>
    simp only [first_split] at h
    split at h
    · simp only [Option.some.injEq, Prod.mk.injEq] at h
      obtain ⟨h1, h2⟩ := h
      subst h1 h2
      exact ⟨by assumption, by simp⟩
    · split at h
      · obtain ⟨i1, i2⟩ := ih h
        exact ⟨i1, by simp; omega⟩
      · simp at h

theorem first_frame_script (s0 : List DecodeResult) (s : List DecodeResult) :
    ∀ (fuel : Nat) (st : LoadState (List DecodeResult)), st.dec = s → s.length < fuel →
      (first_frame (script_decoder s0) fuel st).status = st.status ∧
      (first_split s = none → (first_frame (script_decoder s0) fuel st).samples = 0) ∧
      (∀ f rs, first_split s = some (f, rs) →
        (first_frame (script_decoder s0) fuel st).dec = rs ∧
        (first_frame (script_decoder s0) fuel st).samples = f.samples ∧
        (first_frame (script_decoder s0) fuel st).frame_info = f.info) := by
  induction s with
  | nil =>
    intro fuel st hdec hfuel
    obtain ⟨n, rfl⟩ : ∃ n, fuel = n + 1 := ⟨fuel - 1, by simp at hfuel; omega⟩
    have hd : (decode_next (script_decoder s0) none st).samples = 0 ∧
        (decode_next (script_decoder s0) none st).frame_info.frame_bytes = 0 ∧
        (decode_next (script_decoder s0) none st).status = st.status := by
      simp [decode_next, hdec, script_decoder, mp3dec_frame_info_t.zero]
    obtain ⟨d1, d2, d3⟩ := hd
    rw [first_frame_succ, if_neg (by simp [d1]), if_neg (by simp [d2])]
    exact ⟨d3, fun _ => d1, by simp [first_split]⟩
  | cons r rs ih =>
    intro fuel st hdec hfuel
    obtain ⟨n, rfl⟩ : ∃ n, fuel = n + 1 := ⟨fuel - 1, by simp at hfuel; omega⟩
    have hn : rs.length < n := by simp at hfuel; omega
    have hd : (decode_next (script_decoder s0) none st).dec = rs ∧
        (decode_next (script_decoder s0) none st).samples = r.samples ∧
        (decode_next (script_decoder s0) none st).frame_info = r.info ∧
        (decode_next (script_decoder s0) none st).status = st.status := by
      simp [decode_next, hdec, script_decoder]
    obtain ⟨d0, d1, d2, d3⟩ := hd
    rw [first_frame_succ]
    simp only [first_split]
    by_cases hs : r.samples = 0
    · rw [if_neg (by simp [d1, hs])]
      simp only [hs, ne_eq, not_true_eq_false, if_false]
      by_cases hfb : r.info.frame_bytes = 0
      · rw [if_neg (by simp [d2, hfb])]
        simp only [hfb, ne_eq, not_true_eq_false, if_false]
        exact ⟨d3, fun _ => by rw [d1, hs], by simp⟩
      · rw [if_pos (by simp [d2, hfb])]
        simp only [hfb, ne_eq, not_false_eq_true, if_true]
        have := ih n _ d0 hn
        rw [d3] at this
        exact this
    · rw [if_pos (by simp [d1, hs])]
      simp only [hs, ne_eq, not_false_eq_true, if_true]
      refine ⟨d3, by simp, ?_⟩
      intro f t h
      simp only [Option.some.injEq, Prod.mk.injEq] at h
      obtain ⟨h1, h2⟩ := h
      subst h1 h2
      exact ⟨d0, d1, d2⟩

theorem kept_sum_eq (allow : Bool) (s : List DecodeResult) (f : DecodeResult)
    (rs : List DecodeResult) (h : first_split s = some (f, rs)) :
    kept_frames allow s = f :: rest_kept allow f.info.hz f.info.layer f.info.channels rs := by
  simp [kept_frames, h]

/-- The run of `mp3dec_load_buf` against a script, in terms of `kept_frames`. -/
theorem load_buf_script (env : Env) (script : List DecodeResult) (buf : List Nat)
    (cb : Bool) (fuel : Nat) (halloc : ∀ n, env.alloc n = true)
    (hskip : mp3dec_skip_id3v2 buf buf.length ≤ buf.length)
    (hfirst : ∀ f rs, first_split script = some (f, rs) → f.info.frame_bytes ≠ 0)
    (hfuel : script.length < fuel) :
    (mp3dec_load_buf env (script_decoder script) buf buf.length cb fuel).status
      = Status.returned ∧
    (mp3dec_load_buf env (script_decoder script) buf buf.length cb fuel).info.samples
      = ((kept_frames env.MINIMP3_ALLOW_MONO_STEREO_TRANSITION script).map
          fun x => x.samples * x.info.channels).sum ∧
    (mp3dec_load_buf env (script_decoder script) buf buf.length cb fuel).frames
      = (kept_frames env.MINIMP3_ALLOW_MONO_STEREO_TRANSITION script).length ∧
    (mp3dec_load_buf env (script_decoder script) buf buf.length cb fuel).avg_bitrate_kbps
      = ((kept_frames env.MINIMP3_ALLOW_MONO_STEREO_TRANSITION script).map
          fun x => x.info.bitrate_kbps).sum ∧
    (∀ f rs, first_split script = some (f, rs) →
      (mp3dec_load_buf env (script_decoder script) buf buf.length cb fuel).info.avg_bitrate_kbps
        = ((kept_frames env.MINIMP3_ALLOW_MONO_STEREO_TRANSITION script).map
            fun x => x.info.bitrate_kbps).sum
          / (kept_frames env.MINIMP3_ALLOW_MONO_STEREO_TRANSITION script).length ∧
      (mp3dec_load_buf env (script_decoder script) buf buf.length cb fuel).info.hz
        = f.info.hz ∧
      (mp3dec_load_buf env (script_decoder script) buf buf.length cb fuel).info.layer
        = f.info.layer ∧
      ((env.MINIMP3_ALLOW_MONO_STEREO_TRANSITION = false ∨
          ∀ x ∈ kept_frames env.MINIMP3_ALLOW_MONO_STEREO_TRANSITION script,
            x.info.channels = f.info.channels) →
        (mp3dec_load_buf env (script_decoder script) buf buf.length cb fuel).info.channels
          = f.info.channels)) := by
  unfold mp3dec_load_buf
  simp only []
  rw [if_neg (by omega)]
  generalize hst0 : ({ load_init (script_decoder script) buf.length with
      buf := mp3dec_skip_id3v2 buf buf.length,
      buf_size := size_sub buf.length (mp3dec_skip_id3v2 buf buf.length) }
        : LoadState (List DecodeResult)) = st0
  have hk := first_frame_keeps (script_decoder script) fuel
    { st0 with dec := (script_decoder script).init }
  obtain ⟨f1, f2, f3⟩ := first_frame_script script script fuel
    { st0 with dec := (script_decoder script).init } rfl hfuel
  have hs0 : ({ st0 with dec := (script_decoder script).init }
      : LoadState (List DecodeResult)).status = Status.returned := by
    subst hst0; rfl
  replace f1 := f1.trans hs0
  obtain ⟨k1, k2, k3, k4, k5, k6, k7⟩ := hk
  have k1' : (first_frame (script_decoder script) fuel
      { st0 with dec := (script_decoder script).init }).info = mp3dec_file_info_t.zero := by
    rw [k1]; subst hst0; rfl
  have k3' : (first_frame (script_decoder script) fuel
      { st0 with dec := (script_decoder script).init }).avg_bitrate_kbps = 0 := by
    rw [k3]; subst hst0; rfl
  have k4' : (first_frame (script_decoder script) fuel
      { st0 with dec := (script_decoder script).init }).frames = 0 := by
    rw [k4]; subst hst0; rfl
  unfold load_frames
  simp only []
  generalize first_frame (script_decoder script) fuel
    { st0 with dec := (script_decoder script).init } = st1 at *
  rw [if_neg (by simp [f1])]
  cases hsp : first_split script with
  | none =>
    rw [if_pos (f2 hsp)]
    simp [kept_frames, hsp, f1, k1', k3', k4', mp3dec_file_info_t.zero]
  | some p =>
    obtain ⟨f, rs⟩ := p
    obtain ⟨e0, e1, e2⟩ := f3 f rs hsp
    obtain ⟨hfs, hlen⟩ := first_split_some script f rs hsp
    have hfb := hfirst f rs hsp
    rw [if_neg (by rw [e1]; exact hfs), if_neg (by rw [e2]; exact hfb),
      if_neg (by simp [halloc])]
    obtain ⟨r1, r2, r3, r4, r5, r6, r7, r8⟩ := rest_frames_script env script cb buf.length
      halloc rs fuel (save_first env st1) e0 (by omega) (by simp [save_first])
      (by simpa [save_first] using f1)
    have s1 : (save_first env st1).info.samples = f.samples * f.info.channels := by
      simp [save_first, e1, e2]
    have s2 : (save_first env st1).info.hz = f.info.hz := by simp [save_first, e2]
    have s3 : (save_first env st1).info.layer = f.info.layer := by simp [save_first, e2]
    have s4 : (save_first env st1).info.channels = f.info.channels := by
      simp [save_first, e2]
    have s5 : (save_first env st1).frames = 1 := rfl
    have s6 : (save_first env st1).avg_bitrate_kbps = f.info.bitrate_kbps := by
      simp [save_first, e2]
    rw [s1, s2, s3, s4] at r3
    rw [s5, s2, s3, s4] at r4
    rw [s6, s2, s3, s4] at r5
    rw [s2] at r6
    rw [s3] at r7
    rw [s2, s3, s4] at r8
    rw [if_pos r1]
    rw [kept_sum_eq _ _ _ _ hsp]
    refine ⟨r1, ?_, ?_, ?_, ?_⟩
    · simp only [finish_load]; rw [r3]; simp
    · simp only [finish_load]; rw [r4]; simp; omega
    · simp only [finish_load]; rw [r5]; simp
    · intro f' rs' h'
      simp only [Option.some.injEq, Prod.mk.injEq] at h'
      obtain ⟨h1, h2⟩ := h'
      subst h1 h2
      refine ⟨?_, r6, r7, ?_⟩
      · simp only [finish_load]; rw [r5, r4]; simp; congr 1; omega
      · intro h
        apply r8
        rcases h with h | h
        · exact Or.inl h
        · right
          intro x hx
          exact h x (by simp [hx])

theorem yields_samples_true (r : DecodeResult) (h : r.samples ≠ 0) :
    yields_samples r = true := by simp [yields_samples, h]

theorem yields_samples_false (r : DecodeResult) (h : r.samples = 0) :
    yields_samples r = false := by simp [yields_samples, h]

theorem has_bytes_true (r : DecodeResult) (h : r.info.frame_bytes ≠ 0) :
    has_bytes r = true := by simp [has_bytes, h]

theorem has_bytes_false (r : DecodeResult) (h : r.info.frame_bytes = 0) :
    has_bytes r = false := by simp [has_bytes, h]

theorem rest_kept_uniform (allow : Bool) (hz layer c : Nat) (z : DecodeResult)
    (rest : List DecodeResult) (hz0 : z.samples = 0) (hz1 : z.info.frame_bytes = 0)
    (fs : List DecodeResult)
    (h : ∀ r ∈ fs, r.samples ≠ 0 ∧ r.info.channels = c ∧ r.info.hz = hz ∧
      r.info.layer = layer ∧ r.info.frame_bytes ≠ 0) :
    rest_kept allow hz layer c (fs ++ z :: rest) = fs := by
  induction fs with
  | nil => simp [rest_kept, hz0, hz1]
  | cons r t ih =>
    obtain ⟨h1, h2, h3, h4, h5⟩ := h r (by simp)
    have := ih (fun x hx => h x (by simp [hx]))
    simp [rest_kept, h1, h2, h3, h4, h5, this]

theorem rest_kept_until_break (hz layer c : Nat) (hc : c ≠ 0) (d : DecodeResult)
    (rest : List DecodeResult) (hd0 : d.samples ≠ 0)
    (hd1 : d.info.hz ≠ hz ∨ d.info.layer ≠ layer ∨ d.info.channels ≠ c)
    (mid : List DecodeResult)
    (h : ∀ r ∈ mid, r.info.frame_bytes ≠ 0 ∧
      (r.samples ≠ 0 → r.info.hz = hz ∧ r.info.layer = layer ∧ r.info.channels = c)) :
    rest_kept false hz layer c (mid ++ d :: rest) = mid.filter yields_samples := by
  induction mid with
  | nil =>
    by_cases h1 : d.info.hz ≠ hz ∨ d.info.layer ≠ layer
    · simp only [List.nil_append, rest_kept, List.filter_nil]
      rw [if_pos hd0, if_pos h1]
    · have hcd : c ≠ d.info.channels := by
        rcases hd1 with h2 | h2 | h2
        · exact absurd (Or.inl h2) h1
        · exact absurd (Or.inr h2) h1
        · exact fun e => h2 e.symm
      have h3 : (c ≠ 0 ∧ c ≠ d.info.channels) ∧ false = false := ⟨⟨hc, hcd⟩, rfl⟩
      show rest_kept false hz layer c (d :: rest) = []
      unfold rest_kept
      rw [if_pos hd0, if_neg h1, if_pos h3]
  | cons r t ih =>
    obtain ⟨h1, h2⟩ := h r (by simp)
    have iht := ih (fun x hx => h x (by simp [hx]))
    by_cases hs : r.samples = 0
    · simp [rest_kept, hs, h1, iht, List.filter_cons, yields_samples_false r hs]
    · obtain ⟨e1, e2, e3⟩ := h2 hs
      simp [rest_kept, hs, h1, e1, e2, e3, iht, List.filter_cons, yields_samples_true r hs]

theorem first_split_junk (junk : List DecodeResult) (f : DecodeResult)
    (tail : List DecodeResult) (hf : f.samples ≠ 0)
    (h : ∀ r ∈ junk, r.samples = 0 ∧ r.info.frame_bytes ≠ 0) :
    first_split (junk ++ f :: tail) = some (f, tail) := by
  induction junk with
  | nil => simp [first_split, hf]
  | cons r t ih =>
    obtain ⟨h1, h2⟩ := h r (by simp)
    simp [first_split, h1, h2, ih (fun x hx => h x (by simp [hx]))]

theorem sum_map_const (fs : List DecodeResult) (s c : Nat)
    (h : ∀ r ∈ fs, r.samples = s ∧ r.info.channels = c) :
    (fs.map fun x => x.samples * x.info.channels).sum = fs.length * s * c := by
  induction fs with
  | nil => simp
  | cons r t ih =>
    obtain ⟨h1, h2⟩ := h r (by simp)
    simp only [List.map_cons, List.sum_cons, List.length_cons,
      ih (fun x hx => h x (by simp [hx])), h1, h2]
    ring

theorem same_stream_congr (allow : Bool) (hz layer ch ch2 : Nat)
    (h : allow = true ∨ ch2 = ch) :
    same_stream allow hz layer ch2 = same_stream allow hz layer ch := by
  rcases h with h | h
  · funext r; simp [same_stream, h]
  · rw [h]

theorem rest_kept_eq (allow : Bool) (hz layer : Nat) (s : List DecodeResult)
    (hwf : ∀ r ∈ s, r.samples ≠ 0 → r.info.frame_bytes ≠ 0) :
    ∀ ch, rest_kept allow hz layer ch s
      = ((before_end s).filter yields_samples).takeWhile
          (same_stream allow hz layer ch) := by
  induction s with
  | nil => intro ch; simp [rest_kept, before_end]
  | cons r t ih =>
    intro ch
    have iht := ih (fun x hx => hwf x (by simp [hx]))
    simp only [before_end] at iht
    simp only [before_end, List.takeWhile_cons, rest_kept]
    by_cases hs : r.samples = 0
    · rw [if_neg (by simp [hs])]
      by_cases hfb : r.info.frame_bytes = 0
      · rw [if_neg (by simp [hfb]), has_bytes_false r hfb]
        simp
      · rw [if_pos hfb, has_bytes_true r hfb, iht ch]
        simp [List.filter_cons, yields_samples_false r hs]
    · have hfb := hwf r (by simp) hs
      rw [if_pos hs, has_bytes_true r hfb]
      simp only [if_true, List.filter_cons, yields_samples_true r hs, List.takeWhile_cons]
      by_cases hrl : r.info.hz ≠ hz ∨ r.info.layer ≠ layer
      · have hn : same_stream allow hz layer ch r = false := by
          simp only [same_stream]
          rcases hrl with h | h <;> simp [h]
        rw [if_pos hrl, hn]
        simp
      · have hz1 : r.info.hz = hz := by
          by_contra h; exact hrl (Or.inl h)
        have hl1 : r.info.layer = layer := by
          by_contra h; exact hrl (Or.inr h)
        rw [if_neg hrl]
        by_cases hch : (ch ≠ 0 ∧ ch ≠ r.info.channels) ∧ allow = false
        · have hn : same_stream allow hz layer ch r = false := by
            obtain ⟨⟨c1, c2⟩, c3⟩ := hch
            simp only [same_stream, c3, c1, Bool.false_or, decide_False, Bool.and_eq_false_imp,
              Bool.and_eq_true, decide_eq_true_eq, decide_eq_false_iff_not]
            intro _ e
            exact c2 e.symm
          rw [if_pos hch, hn]
          simp
        · have hy : same_stream allow hz layer ch r = true := by
            simp only [same_stream, hz1, hl1, decide_True, Bool.true_and, Bool.or_eq_true,
              decide_eq_true_eq]
            by_cases ha : allow = true
            · left; left; exact ha
            · have ha2 : allow = false := by simpa using ha
              by_cases c0 : ch = 0
              · left; right; exact c0
              · right
                by_contra c2
                exact hch ⟨⟨c0, fun e => c2 e.symm⟩, ha2⟩
          have hcong : same_stream allow hz layer
              (if ch ≠ 0 ∧ ch ≠ r.info.channels then 0 else ch)
              = same_stream allow hz layer ch := by
            apply same_stream_congr
            by_cases c : ch ≠ 0 ∧ ch ≠ r.info.channels
            · left
              by_contra ha
              exact hch ⟨c, by simpa using ha⟩
            · right; rw [if_neg c]
          rw [if_neg hch, if_pos hfb, hy, iht, hcong]
          simp

theorem first_split_eq (s : List DecodeResult)
    (hwf : ∀ r ∈ s, r.samples ≠ 0 → r.info.frame_bytes ≠ 0) :
    (first_split s = none ∧ (before_end s).filter yields_samples = []) ∨
    (∃ f rs, first_split s = some (f, rs) ∧
      (before_end s).filter yields_samples = f :: (before_end rs).filter yields_samples ∧
      (∀ r ∈ rs, r.samples ≠ 0 → r.info.frame_bytes ≠ 0)) := by
  induction s with
  | nil => left; simp [first_split, before_end]
  | cons r t ih =>
    have hwt : ∀ x ∈ t, x.samples ≠ 0 → x.info.frame_bytes ≠ 0 :=
      fun x hx => hwf x (by simp [hx])
    simp only [before_end, List.takeWhile_cons, first_split]
    by_cases hs : r.samples = 0
    · rw [if_neg (by simp [hs])]
      by_cases hfb : r.info.frame_bytes = 0
      · left
        rw [if_neg (by simp [hfb]), has_bytes_false r hfb]
        simp
      · rw [if_pos hfb, has_bytes_true r hfb]
        simp only [if_true, List.filter_cons, yields_samples_false r hs]
        rcases ih hwt with ⟨h1, h2⟩ | ⟨f, rs, h1, h2, h3⟩
        · left
          simp only [before_end] at h2
          exact ⟨h1, by simpa using h2⟩
        · right
          simp only [before_end] at h2
          exact ⟨f, rs, h1, by simpa [before_end] using h2, h3⟩
    · right
      have hfb := hwf r (by simp) hs
      rw [if_pos hs, has_bytes_true r hfb]
      refine ⟨r, t, rfl, ?_, hwt⟩
      simp [List.filter_cons, yields_samples_true r hs, before_end]

theorem kept_frames_eq_accumulated (allow : Bool) (s : List DecodeResult)
    (hwf : ∀ r ∈ s, r.samples ≠ 0 → r.info.frame_bytes ≠ 0) :
    kept_frames allow s = accumulated allow s := by
  rcases first_split_eq s hwf with ⟨h1, h2⟩ | ⟨f, rs, h1, h2, h3⟩
  · simp [kept_frames, accumulated, h1, h2]
  · simp only [kept_frames, accumulated, h1, h2]
    rw [rest_kept_eq allow _ _ rs h3]

theorem first_split_mem (s : List DecodeResult) (f : DecodeResult)
    (rs : List DecodeResult) (h : first_split s = some (f, rs)) : f ∈ s := by
  induction s with
  | nil => simp [first_split] at h
  | cons r t ih =>
    simp only [first_split] at h
    split at h
    · simp only [Option.some.injEq, Prod.mk.injEq] at h
      rw [← h.1]; simp
    · split at h
      · exact List.mem_cons_of_mem _ (ih h)
      · simp at h

/-! ### C3, C4, C5: what a run accumulates -/

/-- C3: when the decoder yields `k ≥ 1` consecutive frames with `s ≠ 0` samples per
channel and the same rate, layer and channel count `c`, and then reports a zero frame
length, `mp3dec_load_buf` (allocations succeeding, enough fuel) returns with
`info.samples = k * s * c`, `info.channels = c` and the frames' rate and layer. -/
theorem C3_consistent_frames (env : Env) (buf : List Nat) (progress_cb : Bool) (fuel : Nat)
    (fs : List DecodeResult) (z : DecodeResult) (rest : List DecodeResult)
    (s c hz layer : Nat)
    (halloc : ∀ n, env.alloc n = true)
    (hskip : mp3dec_skip_id3v2 buf buf.length ≤ buf.length)
    (hk : 1 ≤ fs.length) (hs : s ≠ 0)
    (hfs : ∀ r ∈ fs, r.samples = s ∧ r.info.channels = c ∧ r.info.hz = hz ∧
      r.info.layer = layer ∧ r.info.frame_bytes ≠ 0)
    (hz0 : z.samples = 0) (hz1 : z.info.frame_bytes = 0)
    (hfuel : (fs ++ z :: rest).length < fuel) :
    (mp3dec_load_buf env (script_decoder (fs ++ z :: rest)) buf buf.length
      progress_cb fuel).status = Status.returned ∧
    (mp3dec_load_buf env (script_decoder (fs ++ z :: rest)) buf buf.length
      progress_cb fuel).info.samples = fs.length * s * c ∧
    (mp3dec_load_buf env (script_decoder (fs ++ z :: rest)) buf buf.length
      progress_cb fuel).info.channels = c ∧
    (mp3dec_load_buf env (script_decoder (fs ++ z :: rest)) buf buf.length
      progress_cb fuel).info.hz = hz ∧
    (mp3dec_load_buf env (script_decoder (fs ++ z :: rest)) buf buf.length
      progress_cb fuel).info.layer = layer := by
  match fs, hk, hfs, hfuel with
  | f :: t, _, hfs, hfuel =>
    obtain ⟨f1, f2, f3, f4, f5⟩ := hfs f (by simp)
    have hsp : first_split (f :: t ++ z :: rest) = some (f, t ++ z :: rest) := by
      simp [first_split, f1, hs]
    have hrk : rest_kept env.MINIMP3_ALLOW_MONO_STEREO_TRANSITION f.info.hz f.info.layer
        f.info.channels (t ++ z :: rest) = t := by
      rw [f2, f3, f4]
      apply rest_kept_uniform _ _ _ _ _ _ hz0 hz1
      intro r hr
      obtain ⟨r1, r2, r3, r4, r5⟩ := hfs r (by simp [hr])
      exact ⟨by rw [r1]; exact hs, r2, r3, r4, r5⟩
    have hkf : kept_frames env.MINIMP3_ALLOW_MONO_STEREO_TRANSITION (f :: t ++ z :: rest)
        = f :: t := by
      rw [kept_sum_eq _ _ _ _ hsp, hrk]
    obtain ⟨l1, l2, _, _, l5⟩ := load_buf_script env (f :: t ++ z :: rest) buf progress_cb
      fuel halloc hskip
      (by
        intro f' rs' h'
        rw [hsp] at h'
        simp only [Option.some.injEq, Prod.mk.injEq] at h'
        rw [← h'.1]; exact f5)
      hfuel
    obtain ⟨_, m2, m3, m4⟩ := l5 f _ hsp
    rw [hkf] at l2 m4
    refine ⟨l1, ?_, ?_, ?_, ?_⟩
    · rw [l2]
      exact sum_map_const (f :: t) s c (fun r hr => ⟨(hfs r hr).1, (hfs r hr).2.1⟩)
    · rw [m4 (Or.inr (fun x hx => by rw [(hfs x hx).2.1, f2])), f2]
    · rw [m2, f3]
    · rw [m3, f4]

/-- C4: strict build.  The decoder first gives answers without samples (`junk`), then a
first frame `f`, then answers `mid` whose sample-producing frames agree with `f` in rate,
layer and channel count, then a sample-producing frame `d` that differs from `f` in one
of them, then anything (`rest`).  The loader stops at `d`: sample count, frame counter and
bitrate accumulator are the sums over the sample-producing frames of `f :: mid` only, and
`info.hz`, `info.layer`, `info.channels` are those of `f`. -/
theorem C4_discontinuity (env : Env) (buf : List Nat) (progress_cb : Bool) (fuel : Nat)
    (junk : List DecodeResult) (f : DecodeResult) (mid : List DecodeResult)
    (d : DecodeResult) (rest : List DecodeResult)
    (hstrict : env.MINIMP3_ALLOW_MONO_STEREO_TRANSITION = false)
    (halloc : ∀ n, env.alloc n = true)
    (hskip : mp3dec_skip_id3v2 buf buf.length ≤ buf.length)
    (hjunk : ∀ r ∈ junk, r.samples = 0 ∧ r.info.frame_bytes ≠ 0)
    (hf : f.samples ≠ 0 ∧ f.info.frame_bytes ≠ 0 ∧ f.info.channels ≠ 0)
    (hmid : ∀ r ∈ mid, r.info.frame_bytes ≠ 0 ∧
      (r.samples ≠ 0 → r.info.hz = f.info.hz ∧ r.info.layer = f.info.layer ∧
        r.info.channels = f.info.channels))
    (hd : d.samples ≠ 0 ∧
      (d.info.hz ≠ f.info.hz ∨ d.info.layer ≠ f.info.layer ∨
        d.info.channels ≠ f.info.channels))
    (hfuel : (junk ++ f :: (mid ++ d :: rest)).length < fuel) :
    (mp3dec_load_buf env (script_decoder (junk ++ f :: (mid ++ d :: rest))) buf buf.length
      progress_cb fuel).status = Status.returned ∧
    (mp3dec_load_buf env (script_decoder (junk ++ f :: (mid ++ d :: rest))) buf buf.length
      progress_cb fuel).info.samples
        = (((f :: mid).filter yields_samples).map fun x => x.samples * x.info.channels).sum ∧
    (mp3dec_load_buf env (script_decoder (junk ++ f :: (mid ++ d :: rest))) buf buf.length
      progress_cb fuel).frames = ((f :: mid).filter yields_samples).length ∧
    (mp3dec_load_buf env (script_decoder (junk ++ f :: (mid ++ d :: rest))) buf buf.length
      progress_cb fuel).avg_bitrate_kbps
        = (((f :: mid).filter yields_samples).map fun x => x.info.bitrate_kbps).sum ∧
    (mp3dec_load_buf env (script_decoder (junk ++ f :: (mid ++ d :: rest))) buf buf.length
      progress_cb fuel).info.hz = f.info.hz ∧
    (mp3dec_load_buf env (script_decoder (junk ++ f :: (mid ++ d :: rest))) buf buf.length
      progress_cb fuel).info.layer = f.info.layer ∧
    (mp3dec_load_buf env (script_decoder (junk ++ f :: (mid ++ d :: rest))) buf buf.length
      progress_cb fuel).info.channels = f.info.channels := by
  obtain ⟨hf1, hf2, hf3⟩ := hf
  have hsp := first_split_junk junk f (mid ++ d :: rest) hf1 hjunk
  have hrk := rest_kept_until_break f.info.hz f.info.layer f.info.channels hf3 d rest
    hd.1 hd.2 mid hmid
  have hkf : kept_frames env.MINIMP3_ALLOW_MONO_STEREO_TRANSITION
      (junk ++ f :: (mid ++ d :: rest)) = (f :: mid).filter yields_samples := by
    rw [kept_sum_eq _ _ _ _ hsp, hstrict, hrk, List.filter_cons,
      yields_samples_true f hf1]
    rfl
  obtain ⟨l1, l2, l3, l4, l5⟩ := load_buf_script env (junk ++ f :: (mid ++ d :: rest)) buf
    progress_cb fuel halloc hskip
    (by
      intro f' rs' h'
      rw [hsp] at h'
      simp only [Option.some.injEq, Prod.mk.injEq] at h'
      rw [← h'.1]; exact hf2)
    hfuel
  obtain ⟨_, m2, m3, m4⟩ := l5 f _ hsp
  rw [hkf] at l2 l3 l4
  exact ⟨l1, l2, l3, l4, m2, m3, m4 (Or.inl hstrict)⟩

/-- C5: whenever at least one frame is accumulated, `info.avg_bitrate_kbps` is the sum
of the bitrates of exactly the accumulated frames divided (integer division) by their
number, which is also the final frame counter; answers without samples and the frame that
breaks the stream are in neither. -/
theorem C5_average_bitrate (env : Env) (buf : List Nat) (progress_cb : Bool) (fuel : Nat)
    (script : List DecodeResult)
    (halloc : ∀ n, env.alloc n = true)
    (hskip : mp3dec_skip_id3v2 buf buf.length ≤ buf.length)
    (hwf : ∀ r ∈ script, r.samples ≠ 0 → r.info.frame_bytes ≠ 0)
    (hne : accumulated env.MINIMP3_ALLOW_MONO_STEREO_TRANSITION script ≠ [])
    (hfuel : script.length < fuel) :
    (mp3dec_load_buf env (script_decoder script) buf buf.length progress_cb fuel).status
      = Status.returned ∧
    (mp3dec_load_buf env (script_decoder script) buf buf.length progress_cb fuel).frames
      = (accumulated env.MINIMP3_ALLOW_MONO_STEREO_TRANSITION script).length ∧
    (mp3dec_load_buf env (script_decoder script) buf buf.length progress_cb fuel).info.samples
      = ((accumulated env.MINIMP3_ALLOW_MONO_STEREO_TRANSITION script).map
          fun x => x.samples * x.info.channels).sum ∧
    (mp3dec_load_buf env (script_decoder script) buf buf.length
        progress_cb fuel).info.avg_bitrate_kbps
      = ((accumulated env.MINIMP3_ALLOW_MONO_STEREO_TRANSITION script).map
          fun x => x.info.bitrate_kbps).sum
        / (accumulated env.MINIMP3_ALLOW_MONO_STEREO_TRANSITION script).length := by
  have hka := kept_frames_eq_accumulated env.MINIMP3_ALLOW_MONO_STEREO_TRANSITION script hwf
  have hfirst : ∀ f rs, first_split script = some (f, rs) → f.info.frame_bytes ≠ 0 := by
    intro f rs h
    exact hwf f (first_split_mem script f rs h) (first_split_some script f rs h).1
  obtain ⟨l1, l2, l3, _, l5⟩ := load_buf_script env script buf progress_cb fuel halloc hskip
    hfirst hfuel
  rw [hka] at l2 l3
  refine ⟨l1, l3, l2, ?_⟩
  cases hsp : first_split script with
  | none =>
    rw [← hka] at hne
    simp [kept_frames, hsp] at hne
  | some p =>
    obtain ⟨m1, _⟩ := l5 p.1 p.2 hsp
    rw [hka] at m1
    exact m1

/-! ### Witnesses and the failing case of C7 -/

/-- C3 witness: three stereo 44100 Hz frames of 1152 samples per channel give 6912
samples. -/
theorem C3_consistent_frames_witness :
    (mp3dec_load_buf default_env
      (script_decoder ([frame_44k, frame_44k, frame_44k] ++ end_of_stream :: []))
      [] ([] : List Nat).length true 5).info.samples = 3 * 1152 * 2 :=
  (C3_consistent_frames default_env [] true 5 [frame_44k, frame_44k, frame_44k]
    end_of_stream [] 1152 2 44100 3 (fun _ => rfl) (by decide) (by decide) (by decide)
    (by decide) rfl rfl (by decide)).2.1

/-- C4 witness: two 44100 Hz frames, then a 48000 Hz frame; two frames are counted. -/
theorem C4_discontinuity_witness :
    (mp3dec_load_buf default_env
      (script_decoder ([skipped_bytes] ++ frame_44k :: ([skipped_bytes, frame_44k]
        ++ frame_48k :: [frame_44k])))
      [] ([] : List Nat).length true 7).frames = 2 :=
  (C4_discontinuity default_env [] true 7 [skipped_bytes] frame_44k
    [skipped_bytes, frame_44k] frame_48k [frame_44k] rfl (fun _ => rfl) (by decide)
    (by decide) (by decide) (by decide) (by decide) (by decide)).2.2.1

/-- C5 witness: skipped bytes, one 128 kbps frame, then a frame of another rate. -/
theorem C5_average_bitrate_witness :
    (mp3dec_load_buf default_env
      (script_decoder [skipped_bytes, frame_44k, frame_48k, frame_44k])
      [] ([] : List Nat).length false 5).info.avg_bitrate_kbps
      = ([frame_44k].map fun x => x.info.bitrate_kbps).sum / 1 :=
  (C5_average_bitrate default_env [] false 5
    [skipped_bytes, frame_44k, frame_48k, frame_44k] (fun _ => rfl) (by decide)
    (by decide) (by decide) (by decide)).2.2.2

/-- C7, as stated, fails on a buffer holding exactly one frame: the frame is accumulated
(frame counter 1) and the non-null callback is never invoked. -/
theorem C7_counterexample :
    (mp3dec_load_buf default_env (cbr_decoder frame_44k) (List.replicate 417 0) 417
      true 5).status = Status.returned ∧
    (mp3dec_load_buf default_env (cbr_decoder frame_44k) (List.replicate 417 0) 417
      true 5).frames = 1 ∧
    (mp3dec_load_buf default_env (cbr_decoder frame_44k) (List.replicate 417 0) 417
      true 5).progress.length = 0 := by
  decide

theorem cbr_decoder_fits (r : DecodeResult) (d : Unit) (b n : Nat) :
    ((cbr_decoder r).decode d b n).2.2.frame_bytes ≤ n := by
  simp only [cbr_decoder]
  split
  · assumption
  · simp [mp3dec_frame_info_t.zero]

theorem cbr_decoder_max (r : DecodeResult) (m : Nat) (h : r.samples * r.info.channels ≤ m)
    (d : Unit) (b n : Nat) :
    ((cbr_decoder r).decode d b n).2.1 * ((cbr_decoder r).decode d b n).2.2.channels ≤ m := by
  simp only [cbr_decoder]
  split
  · exact h
  · simp

/-- C7 witness: three frames in 1251 bytes, two invocations. -/
theorem C7_progress_witness :
    (mp3dec_load_buf default_env (cbr_decoder frame_44k) (List.replicate 1251 0) 1251
      true 5).frames = 3 ∧
    ((mp3dec_load_buf default_env (cbr_decoder frame_44k) (List.replicate 1251 0) 1251
        true 5).frames ≠ 0 →
      (mp3dec_load_buf default_env (cbr_decoder frame_44k) (List.replicate 1251 0) 1251
        true 5).progress.length + 1
        = (mp3dec_load_buf default_env (cbr_decoder frame_44k) (List.replicate 1251 0) 1251
          true 5).frames) :=
  ⟨by decide,
    (C7_progress default_env (cbr_decoder frame_44k) (List.replicate 1251 0) 1251 5
      (cbr_decoder_fits frame_44k)).2.1⟩

/-! ### C6, C8: the single-frame scan and the status of the chunked open -/

theorem iterate_frames_at_most_once {υ : Type} (S : FrameSearch)
    (cb : υ → IterCall → υ × Int) (fuel : Nat) (st : IterState υ) :
    (iterate_frames S cb fuel st).cb_calls.length ≤ st.cb_calls.length + 1 := by
  induction fuel generalizing st with
  | zero => simp [iterate_frames]
  | succ n ih =>
    unfold iterate_frames
    simp only []
    split
    · exact ih _
    · split
      · simp
      · split <;> simp

/-- C6, code evaluated at the failing input: 834 bytes holding two back-to-back frames.
With a callback that never asks to stop, the callback is invoked once, not twice, and the
scan returns with 417 bytes (the second frame) unvisited; a callback that would stop on
its second invocation is likewise invoked once. -/
theorem C6_iterate_stops_after_first_frame :
    (mp3dec_iterate_buf cbr_search (some counting_callback) 0 (List.replicate 834 0) 834
      5).status = Status.returned ∧
    (mp3dec_iterate_buf cbr_search (some counting_callback) 0 (List.replicate 834 0) 834
      5).cb_calls.length = 1 ∧
    (mp3dec_iterate_buf cbr_search (some counting_callback) 0 (List.replicate 834 0) 834
      5).buf_size = 417 ∧
    (mp3dec_iterate_buf cbr_search (some stop_on_second) 0 (List.replicate 834 0) 834
      5).cb_calls.length = 1 := by
  decide

/-- C8, code evaluated at the failing inputs: `mp3dec_open_file` returns 0 (not a negative
status) for a file that cannot be opened and for a file below two chunk units, leaving the
buffer null, and returns 1 (not 0) when the file was opened and the window allocated;
`mp3dec_load` and `mp3dec_iterate` then return 1 on the good file without decoding or
scanning, and `mp3dec_load` goes on to `mp3dec_load_buf` on the file that failed to
open. -/
theorem C8_open_file_status :
    (mp3dec_open_file { good_file with orbisOpen := -1 } chunk_init).1 = 0 ∧
    (mp3dec_open_file { good_file with fileSize := 1000 } chunk_init).1 = 0 ∧
    (mp3dec_open_file { good_file with fileSize := 1000 } chunk_init).2.1.buffer = none ∧
    (mp3dec_open_file good_file chunk_init).1 = 1 ∧
    (mp3dec_open_file good_file chunk_init).2.1.buffer.isSome = true ∧
    (mp3dec_load default_env (cbr_decoder frame_44k) good_file chunk_init true 5).ret = 1 ∧
    (mp3dec_load default_env (cbr_decoder frame_44k) good_file chunk_init true
      5).run.isNone = true ∧
    (mp3dec_load default_env (cbr_decoder frame_44k) { good_file with orbisOpen := -1 }
      chunk_init true 5).run.isSome = true ∧
    (mp3dec_iterate cbr_search (some counting_callback) 0 good_file chunk_init 5).ret = 1 ∧
    (mp3dec_iterate cbr_search (some counting_callback) 0 good_file chunk_init
      5).run.isNone = true := by
  decide

/-! ### C9: the chunked reader -/

theorem read_chunk_at_end (mi : mp3dec_map_info_t) (pos ret : Int) (g : ChunkState)
    (h : g.readed = mi.size) : mp3dec_read_chunk mi pos ret g = g := by
  simp [mp3dec_read_chunk, h]

theorem read_chunks_at_end (mi : mp3dec_map_info_t) (calls : List (Int × Int))
    (g : ChunkState) (h : g.readed = mi.size) : read_chunks mi calls g = g := by
  induction calls with
  | nil => rfl
  | cons c cs ih => simp only [read_chunks, read_chunk_at_end mi c.1 c.2 g h, ih]

theorem read_chunk_bounds (mi : mp3dec_map_info_t) (pos ret : Int) (g : ChunkState)
    (hg : 0 ≤ g.readed ∧ g.readed ≤ mi.size)
    (hr : g.readed ≠ mi.size → 0 ≤ ret ∧ ret ≤ SIZE ∧ g.readed + ret ≤ mi.size) :
    0 ≤ (mp3dec_read_chunk mi pos ret g).readed ∧
    (mp3dec_read_chunk mi pos ret g).readed ≤ mi.size := by
  unfold mp3dec_read_chunk
  split
  · exact hg
  · rename_i hne
    obtain ⟨h1, h2, h3⟩ := hr hne
    simp only []
    split <;> simp only [] <;> omega

theorem read_chunks_bounds (mi : mp3dec_map_info_t) (calls : List (Int × Int)) :
    ∀ (g : ChunkState), 0 ≤ g.readed ∧ g.readed ≤ mi.size → reads_within mi calls g →
      0 ≤ (read_chunks mi calls g).readed ∧ (read_chunks mi calls g).readed ≤ mi.size := by
  induction calls with
  | nil => intro g hg _; exact hg
  | cons c cs ih =>
    intro g hg hw
    obtain ⟨h1, h2⟩ := hw
    exact ih _ (read_chunk_bounds mi c.1 c.2 g hg h1) h2

/-- C9, as stated, fails.  First run: a 70000-byte file is opened and then truncated to
40000 bytes, so the second initial read is short (7232 bytes) and later reads return 0;
the two calls after the short read each issue an OS read.  Second run: the second initial
read is short (100 bytes) and the two later reads return 32768 bytes each; `readed` ends at
98404, above the declared size.  In both runs every OS read returns between 0 and 32768
bytes. -/
theorem C9_counterexample :
    (mp3dec_open_file { good_file with read1 := 7232 } chunk_init).1 = 1 ∧
    (mp3dec_open_file { good_file with read1 := 7232 } chunk_init).2.1.size = 70000 ∧
    (∀ r ∈ [(32768 : Int), 7232, 0, 0, 100, 32768], 0 ≤ r ∧ r ≤ SIZE) ∧
    (mp3dec_open_file { good_file with read1 := 7232 } chunk_init).2.2.reads
      = [(0, 32768), (32768, 7232)] ∧
    (read_chunks (mp3dec_open_file { good_file with read1 := 7232 } chunk_init).2.1
      [(0, 0), (32768, 0)]
      (mp3dec_open_file { good_file with read1 := 7232 } chunk_init).2.2).reads
      = [(0, 32768), (32768, 7232), (0, 0), (32768, 0)] ∧
    (mp3dec_open_file { good_file with read1 := 100 } chunk_init).1 = 1 ∧
    (read_chunks (mp3dec_open_file { good_file with read1 := 100 } chunk_init).2.1
      [(0, 32768), (32768, 32768)]
      (mp3dec_open_file { good_file with read1 := 100 } chunk_init).2.2).reads
      = [(0, 32768), (32768, 100), (0, 32768), (32768, 32768)] ∧
    (read_chunks (mp3dec_open_file { good_file with read1 := 100 } chunk_init).2.1
      [(0, 32768), (32768, 32768)]
      (mp3dec_open_file { good_file with read1 := 100 } chunk_init).2.2).readed = 98404 := by
  decide

theorem open_file_success (os : OsFile) (g : ChunkState)
    (hopen : (mp3dec_open_file os g).1 = 1) :
    SIZE * 2 ≤ os.fileSize ∧
    (mp3dec_open_file os g).2.1.size = os.fileSize ∧
    (mp3dec_open_file os g).2.2 =
      mp3dec_read_chunk (mp3dec_open_file os g).2.1 (1 * SIZE) os.read1
        (mp3dec_read_chunk (mp3dec_open_file os g).2.1 (0 * SIZE) os.read0
          { g with pFile := os.orbisOpen, num := 0, readed := 0 }) := by
  have hfd : ¬ os.orbisOpen ≤ 0 := by
    intro h
    simp [mp3dec_open_file, h] at hopen
  have hsz : ¬ (os.fileSize < 0 ∨ os.fileSize < SIZE * 2) := by
    intro h
    simp [mp3dec_open_file, hfd, h] at hopen
  have hc : os.calloc_ok = true := by
    by_contra h
    simp [mp3dec_open_file, hfd, hsz, h] at hopen
  refine ⟨by omega, ?_, ?_⟩
  · simp [mp3dec_open_file, hfd, hsz, hc]
  · simp [mp3dec_open_file, hfd, hsz, hc]

theorem open_file_bounds (os : OsFile) (g : ChunkState)
    (hopen : (mp3dec_open_file os g).1 = 1)
    (h0 : 0 ≤ os.read0 ∧ os.read0 ≤ SIZE) (h1 : 0 ≤ os.read1 ∧ os.read1 ≤ SIZE) :
    0 ≤ (mp3dec_open_file os g).2.2.readed ∧
    (mp3dec_open_file os g).2.2.readed ≤ (mp3dec_open_file os g).2.1.size := by
  obtain ⟨hsize, e1, e2⟩ := open_file_success os g hopen
  have hS : SIZE = 32768 := rfl
  rw [e2]
  generalize (mp3dec_open_file os g).2.1 = mi at *
  have hb : 0 ≤ (mp3dec_read_chunk mi (0 * SIZE) os.read0
        { g with pFile := os.orbisOpen, num := 0, readed := 0 }).readed ∧
      (mp3dec_read_chunk mi (0 * SIZE) os.read0
        { g with pFile := os.orbisOpen, num := 0, readed := 0 }).readed ≤ SIZE := by
    unfold mp3dec_read_chunk
    simp only []
    split
    · simp only []; omega
    · split <;> simp only [] <;> omega
  apply read_chunk_bounds
  · exact ⟨hb.1, by omega⟩
  · intro _; omega

/-- C9 (amended): after a chunked open that reports the window as ready (status 1 in this
build) and whose two initial reads return between
0 and `SIZE` bytes, for every sequence of `mp3dec_read_chunk` calls in which each issued OS
read returns between 0 and `SIZE` bytes and no more than the bytes not read yet: `readed`
stays between 0 and the declared size; and once `readed` equals the declared size (in
particular after the short final chunk), a further call, or any further sequence of calls
whatever the OS would return, issues no OS read and leaves `readed`, `num` and the list of
reads unchanged. -/
theorem C9_chunked_reads (os : OsFile) (g : ChunkState) (calls : List (Int × Int))
    (hopen : (mp3dec_open_file os g).1 = 1)
    (h0 : 0 ≤ os.read0 ∧ os.read0 ≤ SIZE) (h1 : 0 ≤ os.read1 ∧ os.read1 ≤ SIZE)
    (hcalls : reads_within (mp3dec_open_file os g).2.1 calls (mp3dec_open_file os g).2.2) :
    0 ≤ (read_chunks (mp3dec_open_file os g).2.1 calls
      (mp3dec_open_file os g).2.2).readed ∧
    (read_chunks (mp3dec_open_file os g).2.1 calls (mp3dec_open_file os g).2.2).readed
      ≤ (mp3dec_open_file os g).2.1.size ∧
    ((read_chunks (mp3dec_open_file os g).2.1 calls (mp3dec_open_file os g).2.2).readed
        = (mp3dec_open_file os g).2.1.size →
      (∀ pos ret : Int,
        mp3dec_read_chunk (mp3dec_open_file os g).2.1 pos ret
          (read_chunks (mp3dec_open_file os g).2.1 calls (mp3dec_open_file os g).2.2)
        = read_chunks (mp3dec_open_file os g).2.1 calls (mp3dec_open_file os g).2.2) ∧
      (∀ more : List (Int × Int),
        read_chunks (mp3dec_open_file os g).2.1 more
          (read_chunks (mp3dec_open_file os g).2.1 calls (mp3dec_open_file os g).2.2)
        = read_chunks (mp3dec_open_file os g).2.1 calls (mp3dec_open_file os g).2.2)) := by
  have hb := read_chunks_bounds _ calls _ (open_file_bounds os g hopen h0 h1) hcalls
  exact ⟨hb.1, hb.2, fun h =>
    ⟨fun pos ret => read_chunk_at_end _ pos ret _ h,
     fun more => read_chunks_at_end _ more _ h⟩⟩

/-- C9 witness: a file of 70000 bytes read to its end; the fourth call finds
`readed = 70000` and reads nothing. -/
theorem C9_chunked_reads_witness :
    (read_chunks (mp3dec_open_file good_file chunk_init).2.1
      [(0, 4464), (32768, 77)] (mp3dec_open_file good_file chunk_init).2.2).reads
      = [(0, 32768), (32768, 32768), (0, 4464)] ∧
    (read_chunks (mp3dec_open_file good_file chunk_init).2.1
      [(0, 4464), (32768, 77)] (mp3dec_open_file good_file chunk_init).2.2).readed
      ≤ (mp3dec_open_file good_file chunk_init).2.1.size :=
  ⟨by decide,
    (C9_chunked_reads good_file chunk_init [(0, 4464), (32768, 77)] (by decide)
      (by decide) (by decide)
      ⟨fun _ => by decide, fun h => absurd (by decide) h, trivial⟩).2.1⟩

/-- C10 witness: the constant-bitrate decoder on 1251 bytes. -/
theorem C10_capacity_witness :
    (mp3dec_load_buf default_env (cbr_decoder frame_44k) (List.replicate 1251 0) 1251
      false 5).grows = [{ allocated := 13824, samples := 6912 }] ∧
    (∀ c ∈ (mp3dec_load_buf default_env (cbr_decoder frame_44k) (List.replicate 1251 0)
        1251 false 5).calls, ∀ a u, c.dst = some (a, u) →
      u * default_env.sizeof_sample
        + default_env.MINIMP3_MAX_SAMPLES_PER_FRAME * default_env.sizeof_sample ≤ a) :=
  ⟨by decide,
    (C10_capacity default_env (cbr_decoder frame_44k) (List.replicate 1251 0) 1251 false 5
      (cbr_decoder_max frame_44k _ (by decide))).1⟩

end Minimp3
